import Mathlib

/-!
# go-vncproxy: WebSocket to TCP relay

A shallow embedding of `peer.go` and `proxy.go`.

The packages the repository imports (`net`, `gorilla/websocket`, `pkg/errors`,
`go-bufcopy`) are the environment: connections are explicit states carrying the
script of what the remote side will do, and every call on them is a state
transformer.  The repository's own functions (`NewPeer`, `ReadSource`,
`ReadTarget`, `Close`, `websocketReader.Read`, `websocketWriter.Write`, `New`,
`ServeWS`, `addPeer`, `deletePeer`, `Peers`) are translated line by line.
-/

namespace vncproxy

/-! ## Environment: errors -/

/-- A byte of payload.  The relay never inspects payload values. -/
abbrev Byte := Nat

/-- Go `error` values that occur in the program: the two sentinels the copy loop
knows, an error made from a text (`errors.New`, or any error of the network
stack, identified by its text), and a `pkg/errors` wrapper around a cause. -/
inductive GoError where
  | EOF : GoError
  | ErrShortWrite : GoError
  | fundamental (msg : String) : GoError
  | withMessage (cause : GoError) (msg : String) : GoError
deriving DecidableEq, Repr

/-- The text `err.Error()` returns; a wrapper prints `msg: cause`. -/
def GoError.Error : GoError → String
  | .EOF => "EOF"
  | .ErrShortWrite => "short write"
  | .fundamental msg => msg
  | .withMessage cause msg => msg ++ ": " ++ cause.Error

/-- `errors.New(msg)`. -/
def errorsNew (msg : String) : GoError := .fundamental msg

/-- `errors.Wrap(err, msg)` and `errors.Wrapf(err, format, args...)` once the
format is rendered to `msg`. -/
def errorsWrap (err : GoError) (msg : String) : GoError := .withMessage err msg

/-- `strings.Contains(s, substr)`: `substr` occurs in `s` as a contiguous run. -/
def stringsContains (s substr : String) : Bool := decide (substr.data <:+: s.data)

/-! ## Environment: the framed connection (`*websocket.Conn`) -/

/-- `websocket.TextMessage`. -/
def TextMessage : Nat := 1

/-- `websocket.BinaryMessage`. -/
def BinaryMessage : Nat := 2

/-- State of a `*websocket.Conn`.
* `incoming`: the data messages the remote side delivers, in arrival order, as
  (message type, payload);
* `readErr`: what `ReadMessage` returns once `incoming` is used up (a close
  frame, a network failure);
* `sent`: the messages `WriteMessage` has accepted, in send order;
* `writeCalls`: how often `WriteMessage` was invoked;
* `writeLimit`: how many further messages the connection accepts (`none`: no
  limit), after which `WriteMessage` fails with `writeErr`;
* `remoteAddr`: the text `%v` prints for `RemoteAddr()`;
* `fd`: the socket, which tells one connection from another. -/
structure WsConn where
  incoming : List (Nat × List Byte)
  readErr : GoError
  sent : List (Nat × List Byte)
  writeCalls : Nat
  writeLimit : Option Nat
  writeErr : GoError
  remoteAddr : String
  fd : Nat
deriving DecidableEq, Repr

/-- `conn.ReadMessage()`: the next message, or the read error. -/
def WsConn.ReadMessage (c : WsConn) : Except GoError (Nat × List Byte) × WsConn :=
  match c.incoming with
  | [] => (.error c.readErr, c)
  | m :: rest => (.ok m, { c with incoming := rest })

/-- `conn.WriteMessage(messageType, data)`: one message out, or the write error. -/
def WsConn.WriteMessage (c : WsConn) (messageType : Nat) (data : List Byte) :
    Option GoError × WsConn :=
  match c.writeLimit with
  | none =>
    (none, { c with sent := c.sent ++ [(messageType, data)], writeCalls := c.writeCalls + 1 })
  | some 0 => (some c.writeErr, { c with writeCalls := c.writeCalls + 1 })
  | some (k + 1) =>
    (none, { c with sent := c.sent ++ [(messageType, data)], writeCalls := c.writeCalls + 1,
                    writeLimit := some k })

/-- The builtin `copy(dst, src)`: the number of bytes copied and the new `dst`. -/
def goCopy (dst src : List Byte) : Nat × List Byte :=
  let n := min dst.length src.length
  (n, src.take n ++ dst.drop n)

/-! ## Environment: the backend connection (`net.Conn`, a `*net.TCPConn`) -/

/-- State of the backend connection.
* `pending`: the segments of bytes the backend delivers, in arrival order;
* `readErr`: what `Read` returns once `pending` is used up (`io.EOF` when the
  backend closes its side);
* `received`: the bytes `Write` has handed to the backend, in order;
* `writeLimit`: how many further bytes the connection accepts (`none`: no
  limit), after which `Write` fails with `writeErr`;
* `keepAliveErr`, `keepAlivePeriodErr`: what `SetKeepAlive` and
  `SetKeepAlivePeriod` will return;
* `keepAlive`, `keepAlivePeriod`: the socket options as set so far;
* `remoteAddr`: the text `%v` prints for `RemoteAddr()`;
* `fd`: the socket. -/
structure TcpConn where
  pending : List (List Byte)
  readErr : GoError
  received : List Byte
  writeLimit : Option Nat
  writeErr : GoError
  keepAliveErr : Option GoError
  keepAlivePeriodErr : Option GoError
  keepAlive : Bool
  keepAlivePeriod : Int
  remoteAddr : String
  fd : Nat
deriving DecidableEq, Repr

/-- Result of a `Read`: `(n, err)`, the caller's buffer and the reader afterwards. -/
structure ReadResult (ρ : Type) where
  n : Nat
  err : Option GoError
  p : List Byte
  next : ρ

/-- Result of a `Write`: `(n, err)` and the writer afterwards. -/
structure WriteResult (ω : Type) where
  n : Nat
  err : Option GoError
  next : ω

/-- `c.Read(p)` on a stream socket: up to `len(p)` bytes of the oldest segment;
what does not fit stays pending. -/
def TcpConn.Read (c : TcpConn) (p : List Byte) : ReadResult TcpConn :=
  match c.pending with
  | [] => { n := 0, err := some c.readErr, p := p, next := c }
  | seg :: rest =>
    let (n, q) := goCopy p seg
    { n := n, err := none, p := q,
      next := { c with pending := if seg.length ≤ p.length then rest else seg.drop n :: rest } }

/-- `c.Write(p)` on a stream socket: all of `p`, or the part the connection
still accepts together with the write error. -/
def TcpConn.Write (c : TcpConn) (p : List Byte) : WriteResult TcpConn :=
  match c.writeLimit with
  | none => { n := p.length, err := none, next := { c with received := c.received ++ p } }
  | some k =>
    if p.length ≤ k then
      { n := p.length, err := none,
        next := { c with received := c.received ++ p, writeLimit := some (k - p.length) } }
    else
      { n := k, err := some c.writeErr,
        next := { c with received := c.received ++ p.take k, writeLimit := some 0 } }

/-- `c.SetKeepAlive(keepalive)`. -/
def TcpConn.SetKeepAlive (c : TcpConn) (keepalive : Bool) : Option GoError × TcpConn :=
  match c.keepAliveErr with
  | some err => (some err, c)
  | none => (none, { c with keepAlive := keepalive })

/-- `c.SetKeepAlivePeriod(d)`. -/
def TcpConn.SetKeepAlivePeriod (c : TcpConn) (d : Int) : Option GoError × TcpConn :=
  match c.keepAlivePeriodErr with
  | some err => (some err, c)
  | none => (none, { c with keepAlivePeriod := d })

/-! ## Environment: the copy loop (`bufcopy.Copy`) -/

/-- Result of a copy: `(written, err)` and both ends afterwards. -/
structure CopyResult (ω ρ : Type) where
  written : Nat
  err : Option GoError
  dst : ω
  src : ρ

/-- The read/write loop of `io.Copy`, which `bufcopy.Copy(dst, src)` (a package
outside this repository) runs with a buffer `buf` taken from its pool: read into
the buffer, write what was read, stop at the first write error, short write or
read error, where `io.EOF` ends the loop without an error.  The shortcuts of
`io.Copy` through `ReadFrom` and `WriteTo` of a `*net.TCPConn` fall back to this
same loop when the other end is not a file or socket, as the adapters are not.
`buf` holds whatever an earlier copy left in it.  `fuel` bounds the number of
iterations; `none` means the bound was reached with the loop still running. -/
def Copy {ω ρ : Type} (Write : ω → List Byte → WriteResult ω)
    (Read : ρ → List Byte → ReadResult ρ) :
    Nat → ω → ρ → List Byte → Nat → Option (CopyResult ω ρ)
  | 0, _, _, _, _ => none
  | fuel + 1, dst, src, buf, written =>
    let r := Read src buf
    if 0 < r.n then
      let w := Write dst (r.p.take r.n)
      let written := if 0 < w.n then written + w.n else written
      match w.err with
      | some ew => some { written := written, err := some ew, dst := w.next, src := r.next }
      | none =>
        if r.n ≠ w.n then
          some { written := written, err := some .ErrShortWrite, dst := w.next, src := r.next }
        else
          match r.err with
          | some er =>
            some { written := written, err := if er = .EOF then none else some er,
                   dst := w.next, src := r.next }
          | none => Copy Write Read fuel w.next r.next r.p written
    else
      match r.err with
      | some er =>
        some { written := written, err := if er = .EOF then none else some er,
               dst := dst, src := r.next }
      | none => Copy Write Read fuel dst r.next r.p written

/-! ## `peer.go`: the adapters -/

/-- `type websocketReader struct { conn *websocket.Conn }`. -/
structure websocketReader where
  conn : WsConn
deriving DecidableEq, Repr

/-- `func (r websocketReader) Read(p []byte) (n int, err error)`. -/
def websocketReader.Read (r : websocketReader) (p : List Byte) : ReadResult websocketReader :=
  match r.conn.ReadMessage with
  | (.error err, conn) => { n := 0, err := some err, p := p, next := { conn := conn } }
  | (.ok (_, data), conn) =>
    let (n, q) := goCopy p data
    { n := n, err := none, p := q, next := { conn := conn } }

/-- `type websocketWriter struct { conn *websocket.Conn }`. -/
structure websocketWriter where
  conn : WsConn
deriving DecidableEq, Repr

/-- `func (w websocketWriter) Write(p []byte) (n int, err error)`. -/
def websocketWriter.Write (w : websocketWriter) (p : List Byte) : WriteResult websocketWriter :=
  match w.conn.WriteMessage BinaryMessage p with
  | (some err, conn) => { n := 0, err := some err, next := { conn := conn } }
  | (none, conn) => { n := p.length, err := none, next := { conn := conn } }

/-! ## `peer.go`: the peer -/

/-- `defaultDialTimeout = 5 * time.Second`, a `time.Duration` in nanoseconds. -/
def defaultDialTimeout : Int := 5 * 1000000000

/-- `type peer struct { source *websocket.Conn; target net.Conn }`; `ptr` is
the address of the struct, which is what the registry uses as key. -/
structure peer where
  ptr : Nat
  source : WsConn
  target : TcpConn
deriving DecidableEq, Repr

/-- One call of `net.DialTimeout`: network, address, timeout. -/
structure DialCall where
  network : String
  addr : String
  timeout : Int
deriving DecidableEq, Repr

/-- The network as `NewPeer` sees it: `dial addr timeout` is what a TCP dial to
`addr` with that timeout comes back with. -/
structure Net where
  dial : String → Int → Except GoError TcpConn

/-- `net.DialTimeout(network, addr, timeout)`: the call reports itself, as the
one-element list of calls made, next to what the network answers. -/
def Net.DialTimeout (net : Net) (network addr : String) (timeout : Int) :
    List DialCall × Except GoError TcpConn :=
  ([{ network := network, addr := addr, timeout := timeout }], net.dial addr timeout)

/-- `func NewPeer(ws *websocket.Conn, addr string, dialTimeout time.Duration) (*peer, error)`.
`ws = none` is the nil pointer, `ptr` the address the new struct gets.  Returned
are the dial calls made, in order, as the calls reported them, and `(peer, err)`. -/
def NewPeer (net : Net) (ptr : Nat) (ws : Option WsConn) (addr : String) (dialTimeout : Int) :
    List DialCall × Except GoError peer :=
  match ws with
  | none => ([], .error (errorsNew "WebSocket connection is nil"))
  | some ws =>
    if addr.length = 0 then
      ([], .error (errorsNew "addr is empty"))
    else
      let dialTimeout := if dialTimeout ≤ 0 then defaultDialTimeout else dialTimeout
      match net.DialTimeout "tcp" addr dialTimeout with
      | (calls, .error err) => (calls, .error (errorsWrap err "cannot connect to VNC backend"))
      | (calls, .ok c) =>
        match c.SetKeepAlive true with
        | (some err, _) =>
          (calls, .error (errorsWrap err "enable VNC backend connection keepalive failed"))
        | (none, c) =>
          match c.SetKeepAlivePeriod (30 * 1000000000) with
          | (some err, _) =>
            (calls, .error (errorsWrap err "set VNC backend connection keepalive period failed"))
          | (none, c) => (calls, .ok { ptr := ptr, source := ws, target := c })

/-- `func (p *peer) ReadSource() error`: `(err, p)` after the copy, `none` when
`fuel` iterations of the copy loop were not enough. -/
def peer.ReadSource (p : peer) (fuel : Nat) (buf : List Byte) : Option (Option GoError × peer) :=
  match Copy TcpConn.Write websocketReader.Read fuel p.target { conn := p.source } buf 0 with
  | none => none
  | some c =>
    let p1 : peer := { p with source := c.src.conn, target := c.dst }
    match c.err with
    | some err =>
      some (some (errorsWrap err ("copy source(" ++ p.source.remoteAddr ++ ") => target("
        ++ p.target.remoteAddr ++ ") failed")), p1)
    | none => some (none, p1)

/-- `func (p *peer) ReadTarget() error`: `(err, p)` after the copy, `none` when
`fuel` iterations of the copy loop were not enough. -/
def peer.ReadTarget (p : peer) (fuel : Nat) (buf : List Byte) : Option (Option GoError × peer) :=
  match Copy websocketWriter.Write TcpConn.Read fuel { conn := p.source } p.target buf 0 with
  | none => none
  | some c =>
    let p1 : peer := { p with source := c.dst.conn, target := c.src }
    match c.err with
    | some err =>
      some (some (errorsWrap err ("copy target(" ++ p.target.remoteAddr ++ ") => source("
        ++ p.source.remoteAddr ++ ") failed")), p1)
    | none => some (none, p1)

/-! ## `proxy.go` -/

/-- The `*http.Request` as far as the handler looks at it. -/
structure Request where
  url : String
deriving DecidableEq, Repr

/-- `type TokenHandler func(r *http.Request) (addr string, err error)`. -/
abbrev TokenHandler := Request → Except GoError String

/-- Calls the handler makes on its environment, in the order they are made.
The logger (`p.logger`, of a type declared in a file of the repository that is
not among the sources) is a sink: a call of `Info`, `Infof` or `Debugf` is
recorded with its arguments, errors as their text, and what the logger does with
them is left open. -/
inductive Event where
  | logInfo (args : List String) : Event
  | logInfof (format : String) (args : List String) : Event
  | logDebugf (format : String) (args : List String) : Event
  | upgrade : Event
  | resolve : Event
  | dial (call : DialCall) : Event
  | wsClose (fd : Nat) : Event
  | tcpClose (fd : Nat) : Event
  | addPeer (ptr : Nat) : Event
  | deletePeer (ptr : Nat) : Event
  | goReadTarget (ptr : Nat) : Event
  | readSource (ptr : Nat) : Event
deriving DecidableEq, Repr

/-- What the goroutines of the process share.
* `maps`: the Go map objects by reference; a value of type `map[*peer]struct{}`
  is a reference into this store, and the object holds the set of its keys;
* `nextMap`, `nextPtr`: the next free map reference and struct address;
* `trace`: the calls made so far. -/
structure World where
  maps : Nat → Finset Nat
  nextMap : Nat
  nextPtr : Nat
  trace : List Event

/-- Record a call. -/
def World.emit (w : World) (e : Event) : World := { w with trace := w.trace ++ [e] }

/-- `make(map[*peer]struct{})`: a new, empty map object. -/
def World.makeMap (w : World) : Nat × World :=
  (w.nextMap, { w with maps := Function.update w.maps w.nextMap ∅, nextMap := w.nextMap + 1 })

/-- `m[k] = struct{}{}` on the map object `m` refers to. -/
def World.mapAssign (w : World) (m k : Nat) : World :=
  { w with maps := Function.update w.maps m (insert k (w.maps m)) }

/-- `delete(m, k)` on the map object `m` refers to. -/
def World.mapDelete (w : World) (m k : Nat) : World :=
  { w with maps := Function.update w.maps m ((w.maps m).erase k) }

/-- `type Config struct`; `TokenHandler = none` is the nil function.  The
`Logger` field only selects where log lines go. -/
structure Config where
  LogLevel : Nat
  DialTimeout : Int
  TokenHandler : Option TokenHandler

/-- `type Proxy struct`; `peers` is a reference to a map object.  The mutex `l`
makes `addPeer` and `deletePeer` atomic, which they are here as functions. -/
structure Proxy where
  logLevel : Nat
  dialTimeout : Int
  peers : Nat
  tokenHandler : TokenHandler

/-- `func New(conf *Config) *Proxy`. -/
def New (conf : Config) (w : World) : Proxy × World :=
  let tokenHandler : TokenHandler :=
    match conf.TokenHandler with
    | none => fun _ => .ok ":5901"
    | some h => h
  let (m, w) := w.makeMap
  ({ logLevel := conf.LogLevel, dialTimeout := conf.DialTimeout, peers := m,
     tokenHandler := tokenHandler }, w)

/-- `func (p *peer) Close()`: closes the framed connection, then the backend
connection. -/
def peer.Close (p : peer) (w : World) : World :=
  (w.emit (.wsClose p.source.fd)).emit (.tcpClose p.target.fd)

/-- `func (p *Proxy) addPeer(peer *peer)`. -/
def Proxy.addPeer (p : Proxy) (pr : peer) (w : World) : World :=
  (w.emit (.addPeer pr.ptr)).mapAssign p.peers pr.ptr

/-- `func (p *Proxy) deletePeer(peer *peer)`. -/
def Proxy.deletePeer (p : Proxy) (pr : peer) (w : World) : World :=
  pr.Close ((w.emit (.deletePeer pr.ptr)).mapDelete p.peers pr.ptr)

/-- `func (p *Proxy) Peers() map[*peer]struct{}`: the value of the field, a
reference to the map object. -/
def Proxy.Peers (p : Proxy) : Nat := p.peers

/-- The members of the registry: the keys of the map object `p.peers` refers to. -/
def Proxy.members (p : Proxy) (w : World) : Finset Nat := w.maps p.peers

/-- The text `strings.Contains` looks for in a relay error. -/
def closedConnText : String := "use of closed network connection"

/-- The `if err != nil { ... }` after a relay returned `err`, the same in the
goroutine (`ReadTarget`, lines 91-97) and inline (`ReadSource`, lines 100-106):
an error is given to `p.logger.Info` unless its text contains the closed
connection text. -/
def Proxy.relayReturned (_p : Proxy) (err : Option GoError) (w : World) : World :=
  match err with
  | none => w
  | some err =>
    if stringsContains err.Error closedConnText then w
    else w.emit (.logInfo [err.Error])

/-- The network as the handler sees it: what `upgrader.Upgrade(w, r, nil)`
returns for a request, and the dialler. -/
structure Env where
  upgrade : Request → Except GoError WsConn
  net : Net

/-- `func (p *Proxy) ServeWS(w, r)` from its first line to the call of
`peer.ReadSource()` (lines 53-100).  The result is `some peer` when the run has
registered `peer`, started the goroutine and entered `ReadSource`, and `none`
when it has returned before that. -/
def Proxy.ServeWS_begin (p : Proxy) (env : Env) (r : Request) (w : World) :
    World × Option peer :=
  let w := w.emit .upgrade
  match env.upgrade r with
  | .error err => (w.emit (.logInfo ["Upgrade to WebSocket failed:", err.Error]), none)
  | .ok conn =>
    let w := w.emit (.logDebugf "ServeWS" [])
    let w := w.emit (.logDebugf "request url: %v" [r.url])
    let w := w.emit .resolve
    match p.tokenHandler r with
    | .error err =>
      let w := w.emit (.logInfof "get VNC backend failed: %v" [err.Error])
      (w.emit (.wsClose conn.fd), none)
    | .ok addr =>
      let (dials, res) := NewPeer env.net w.nextPtr (some conn) addr p.dialTimeout
      let w := { w with trace := w.trace ++ dials.map Event.dial }
      match res with
      | .error err =>
        let w := w.emit (.logInfof "new VNC peer failed: %v" [err.Error])
        (w.emit (.wsClose conn.fd), none)
      | .ok pr =>
        let w := { w with nextPtr := w.nextPtr + 1 }
        let w := p.addPeer pr w
        let w := w.emit (.goReadTarget pr.ptr)
        (w.emit (.readSource pr.ptr), some pr)

/-- The goroutine of `ServeWS` (lines 90-98) from the moment `peer.ReadTarget()`
has returned `err` to its end. -/
def Proxy.ServeWS_go (p : Proxy) (_pr : peer) (err : Option GoError) (w : World) : World :=
  p.relayReturned err w

/-- `ServeWS` from the moment `peer.ReadSource()` has returned `err` to its
return (lines 100-107), followed by the deferred function (lines 85-88). -/
def Proxy.ServeWS_end (p : Proxy) (pr : peer) (err : Option GoError) (w : World) : World :=
  let w := p.relayReturned err w
  let w := w.emit (.logInfo ["close peer"])
  p.deletePeer pr w

/-- What can happen to a session that is in `ReadSource` with its goroutine in
`ReadTarget`: one of the two relays returns. -/
inductive RelayEvent where
  | targetReturned (err : Option GoError) : RelayEvent
  | sourceReturned (err : Option GoError) : RelayEvent
deriving DecidableEq, Repr

/-- A session after `ServeWS_begin`: its peer, whether `ServeWS` has returned and
whether the goroutine has ended. -/
structure Session where
  pr : peer
  returned : Bool
  goEnded : Bool
deriving DecidableEq, Repr

/-- The session `ServeWS_begin` leaves behind. -/
def Session.start (pr : peer) : Session := { pr := pr, returned := false, goEnded := false }

/-- One relay of the session returns; a relay that has returned already cannot
return again. -/
def Proxy.step (p : Proxy) (s : Session) (e : RelayEvent) (w : World) : Session × World :=
  match e with
  | .targetReturned err =>
    if s.goEnded then (s, w) else ({ s with goEnded := true }, p.ServeWS_go s.pr err w)
  | .sourceReturned err =>
    if s.returned then (s, w) else ({ s with returned := true }, p.ServeWS_end s.pr err w)

/-- The session after a sequence of relay events. -/
def Proxy.run (p : Proxy) : Session → List RelayEvent → World → Session × World
  | s, [], w => (s, w)
  | s, e :: es, w => let (s1, w1) := p.step s e w; p.run s1 es w1

/-- The world before any handler has run. -/
def World.init : World := { maps := fun _ => ∅, nextMap := 0, nextPtr := 0, trace := [] }

/-- A framed connection on which nothing arrives and nothing has been sent. -/
def idleWs : WsConn :=
  { incoming := [], readErr := .EOF, sent := [], writeCalls := 0, writeLimit := none,
    writeErr := .EOF, remoteAddr := "10.0.0.7:51234", fd := 3 }

/-- A backend connection on which nothing arrives and nothing has been written. -/
def idleTcp : TcpConn :=
  { pending := [], readErr := .EOF, received := [], writeLimit := none, writeErr := .EOF,
    keepAliveErr := none, keepAlivePeriodErr := none, keepAlive := false, keepAlivePeriod := 0,
    remoteAddr := "127.0.0.1:5901", fd := 4 }

/-- The `net.DialTimeout` calls among the events, in order. -/
def dialCalls (tr : List Event) : List DialCall :=
  tr.filterMap fun e => match e with
    | .dial call => some call
    | _ => none

/-- The event is a call of `addPeer` or `deletePeer`. -/
def Event.isRegistryCall : Event → Bool
  | .addPeer _ => true
  | .deletePeer _ => true
  | _ => false

/-- The event is a `Close` of a connection. -/
def Event.isClose : Event → Bool
  | .wsClose _ => true
  | .tcpClose _ => true
  | _ => false

/-- The event is the start of a relay direction. -/
def Event.isRelayStart : Event → Bool
  | .goReadTarget _ => true
  | .readSource _ => true
  | _ => false

/-- The event is a call of the logger. -/
def Event.isLog : Event → Bool
  | .logInfo _ => true
  | .logInfof _ _ => true
  | .logDebugf _ _ => true
  | _ => false

/-- A network whose every dial succeeds with an idle backend connection. -/
def reachableNet : Net := { dial := fun _ _ => .ok idleTcp }

/-- An environment whose every upgrade succeeds with an idle framed connection. -/
def plainEnv : Env := { upgrade := fun _ => .ok idleWs, net := reachableNet }

/-- A configuration whose resolver refuses every request. -/
def refusingConfig : Config :=
  { LogLevel := 0, DialTimeout := 0,
    TokenHandler := some fun _ => .error (errorsNew "unknown token") }

/-- A configuration with nothing set. -/
def zeroConfig : Config := { LogLevel := 0, DialTimeout := 0, TokenHandler := none }

/-- The proxy `New` makes from the configuration with nothing set. -/
def zeroProxy : Proxy := (New zeroConfig World.init).1

/-- The world after that `New`. -/
def zeroWorld : World := (New zeroConfig World.init).2

/-- The idle backend connection after `NewPeer` has set its keepalive options. -/
def dialledTcp : TcpConn :=
  { idleTcp with keepAlive := true, keepAlivePeriod := 30 * 1000000000 }

/-- The world in which the first handler of `zeroProxy` has entered `ReadSource`. -/
def oneActive : World := (zeroProxy.ServeWS_begin plainEnv { url := "/ws" } zeroWorld).1

/-- The world in which a second handler has entered `ReadSource` as well. -/
def twoActive : World := (zeroProxy.ServeWS_begin plainEnv { url := "/ws" } oneActive).1

/-- The peer of the first handler. -/
def firstPeer : peer := { ptr := 0, source := idleWs, target := dialledTcp }

/-- The peer of the second handler. -/
def secondPeer : peer := { ptr := 1, source := idleWs, target := dialledTcp }

/-- A peer whose client is connected over a Unix socket it has bound to a path,
and has gone away: the next message read fails. -/
def unixPeer : peer :=
  { ptr := 0,
    source := { idleWs with
      readErr := .fundamental "websocket: close 1006 (abnormal closure): unexpected EOF",
      remoteAddr := "/tmp/use of closed network connection" },
    target := dialledTcp }

/-- A peer whose framed connection has been closed under the relay. -/
def closedPeer : peer :=
  { ptr := 0,
    source := { idleWs with
      readErr := .fundamental "read tcp 10.0.0.2:8080: use of closed network connection" },
    target := dialledTcp }

/-- A peer whose client has sent one binary message `[1, 2, 3]`. -/
def peer123 : peer :=
  { ptr := 0, source := { idleWs with incoming := [(BinaryMessage, [1, 2, 3])] },
    target := idleTcp }

/-- A peer whose backend delivers the segments `[7, 8, 9]` and `[10]`. -/
def peerBackend : peer :=
  { ptr := 0, source := idleWs, target := { idleTcp with pending := [[7, 8, 9], [10]] } }

/-- A peer whose backend delivers `[7, 8]` while its framed connection accepts
no message any more. -/
def brokenBackendPeer : peer :=
  { ptr := 0,
    source := { idleWs with writeLimit := some 0,
                            writeErr := .fundamental "write: broken pipe" },
    target := { idleTcp with pending := [[7, 8]] } }

/-- A framed connection that accepts no message any more. -/
def brokenWs : WsConn :=
  { idleWs with writeLimit := some 0, writeErr := .fundamental "write: broken pipe" }

/-- A peer whose client's connection was reset. -/
def resetPeer : peer :=
  { ptr := 0,
    source := { idleWs with readErr := .fundamental "read: connection reset by peer" },
    target := dialledTcp }

/-- A network on which no backend answers. -/
def unreachableNet : Net :=
  { dial := fun _ _ => .error (.fundamental "dial tcp :5901: connect: connection refused") }

/-- A network whose backend answers a dial made with the timeout `t` and no
other. -/
def onlyAt (t : Int) : Net :=
  { dial := fun _ timeout =>
      if timeout = t then .ok idleTcp else .error (.fundamental "dial tcp: i/o timeout") }

/-- An environment whose upgrades succeed and whose backend does not answer. -/
def deadEnv : Env := { upgrade := fun _ => .ok idleWs, net := unreachableNet }

/-- The bytes of `bytes` a writer takes that accepts `limit` further bytes. -/
def accepted (limit : Option Nat) (bytes : List Byte) : List Byte :=
  match limit with
  | none => bytes
  | some k => bytes.take k

/-- The payloads of a list of messages, concatenated in order. -/
def payloads (msgs : List (Nat × List Byte)) : List Byte := (msgs.map Prod.snd).flatten

/-! ## The adapters -/

theorem goCopy_fits (p data : List Byte) (h : data.length ≤ p.length) :
    goCopy p data = (data.length, data ++ p.drop data.length) := by
  simp [goCopy, Nat.min_eq_right h]

theorem goCopy_length (p data : List Byte) : (goCopy p data).2.length = p.length := by
  simp only [goCopy, List.length_append, List.length_take, List.length_drop]
  omega

/-- C2: `websocketReader.Read` takes exactly one message off the connection.  With
payload `data` it returns `n = min(len(p), len(data))` and no error, `p[0..n)` is
`data[0..n)`, `p[n..]` is as before, and the connection afterwards holds the
messages after this one and nothing of `data`, so what did not fit is gone.  When
the message read fails, it returns 0 and that error and leaves `p` as it was. -/
theorem websocketReader_Read_one_message (c : WsConn) (p : List Byte) :
    (∀ (mt : Nat) (data : List Byte) (rest : List (Nat × List Byte)),
      let res := websocketReader.Read { conn := { c with incoming := (mt, data) :: rest } } p;
      res.n = min p.length data.length ∧ res.err = none ∧
      res.p.length = p.length ∧
      res.p.take res.n = data.take res.n ∧ res.p.drop res.n = p.drop res.n ∧
      res.next.conn = { c with incoming := rest }) ∧
    (let res := websocketReader.Read { conn := { c with incoming := [] } } p;
      res.n = 0 ∧ res.err = some c.readErr ∧ res.p = p ∧
      res.next.conn = { c with incoming := [] }) := by
  refine ⟨?_, ?_⟩
  · intro mt data rest
    have hlen : (data.take (min p.length data.length)).length = min p.length data.length := by
      simp
    simp only [websocketReader.Read, WsConn.ReadMessage, goCopy, true_and]
    refine ⟨?_, ?_, ?_⟩
    · simp only [List.length_append, List.length_take, List.length_drop]
      omega
    · rw [List.take_append_of_le_length (by rw [hlen])]
      rw [List.take_of_length_le (by rw [hlen])]
    · rw [List.drop_append_of_le_length (by rw [hlen])]
      rw [List.drop_of_length_le (by rw [hlen])]
      simp
  · simp [websocketReader.Read, WsConn.ReadMessage]

/-- C3: `websocketWriter.Write` makes exactly one `WriteMessage` call, of type
binary and with all of `p` as payload, also for the empty `p`.  When the send
succeeds it returns `(len(p), nil)` and the connection has sent that one message;
when the send fails with `err` it returns `(0, err)`. -/
theorem websocketWriter_Write_one_frame (w : websocketWriter) (p : List Byte) :
    (w.Write p).next.conn = (w.conn.WriteMessage BinaryMessage p).2 ∧
    (w.Write p).next.conn.writeCalls = w.conn.writeCalls + 1 ∧
    ((w.conn.WriteMessage BinaryMessage p).1 = none →
      (w.Write p).n = p.length ∧ (w.Write p).err = none ∧
      (w.Write p).next.conn.sent = w.conn.sent ++ [(BinaryMessage, p)]) ∧
    (∀ err, (w.conn.WriteMessage BinaryMessage p).1 = some err →
      (w.Write p).n = 0 ∧ (w.Write p).err = some err ∧
      (w.Write p).next.conn.sent = w.conn.sent) := by
  obtain ⟨c⟩ := w
  simp only [websocketWriter.Write, WsConn.WriteMessage]
  rcases hl : c.writeLimit with _ | _ | k <;> simp

/-- C3 at the empty buffer: a connection that accepts the message has sent one
empty binary message, and one that does not returns `(0, err)` with its error. -/
theorem websocketWriter_Write_one_frame_witness :
    (websocketWriter.Write { conn := idleWs } []).next.conn.sent = [(BinaryMessage, [])] ∧
    (websocketWriter.Write { conn := brokenWs } []).n = 0 ∧
    (websocketWriter.Write { conn := brokenWs } []).err
      = some (.fundamental "write: broken pipe") :=
  ⟨((websocketWriter_Write_one_frame { conn := idleWs } []).2.2.1 rfl).2.2,
   ((websocketWriter_Write_one_frame { conn := brokenWs } []).2.2.2 _ rfl).1,
   ((websocketWriter_Write_one_frame { conn := brokenWs } []).2.2.2 _ rfl).2.1⟩

/-! ## The relay -/

theorem accepted_nil (limit : Option Nat) : accepted limit [] = [] := by
  cases limit <;> simp [accepted]

theorem websocketReader_Read_nil (c : WsConn) (buf : List Byte) (h : c.incoming = []) :
    websocketReader.Read { conn := c } buf
      = { n := 0, err := some c.readErr, p := buf, next := { conn := c } } := by
  simp [websocketReader.Read, WsConn.ReadMessage, h]

theorem websocketReader_Read_cons (c : WsConn) (buf : List Byte) (mt : Nat) (data : List Byte)
    (rest : List (Nat × List Byte)) (h : c.incoming = (mt, data) :: rest)
    (hfit : data.length ≤ buf.length) :
    websocketReader.Read { conn := c } buf
      = { n := data.length, err := none, p := data ++ buf.drop data.length,
          next := { conn := { c with incoming := rest } } } := by
  simp [websocketReader.Read, WsConn.ReadMessage, h, goCopy_fits buf data hfit]

/-- The copy loop from the framed connection to the backend: with every message
fitting the buffer and more fuel than messages, the loop ends, and the backend
has got the payloads in arrival order, as far as it accepted bytes. -/
theorem Copy_source_to_target (msgs : List (Nat × List Byte)) :
    ∀ (fuel : Nat) (t : TcpConn) (c : WsConn) (buf : List Byte) (written : Nat),
      c.incoming = msgs → (∀ m ∈ msgs, m.2.length ≤ buf.length) → msgs.length < fuel →
      ∃ res, Copy TcpConn.Write websocketReader.Read fuel t { conn := c } buf written = some res ∧
        res.dst.received = t.received ++ accepted t.writeLimit (payloads msgs) := by
  induction msgs with
  | nil =>
    intro fuel t c buf written hc _ hfuel
    obtain ⟨fuel, rfl⟩ : ∃ k, fuel = k + 1 := ⟨fuel - 1, by simp at hfuel; omega⟩
    simp [Copy, websocketReader_Read_nil c buf hc, payloads, accepted_nil]
  | cons m rest ih =>
    intro fuel t c buf written hc hfit hfuel
    obtain ⟨mt, data⟩ := m
    obtain ⟨fuel, rfl⟩ : ∃ k, fuel = k + 1 := ⟨fuel - 1, by simp at hfuel; omega⟩
    have hdata : data.length ≤ buf.length := hfit (mt, data) (List.mem_cons_self _ _)
    have hbuf : (data ++ buf.drop data.length).length = buf.length := by
      simp only [List.length_append, List.length_drop]; omega
    have hrest : ∀ m ∈ rest, m.2.length ≤ (data ++ buf.drop data.length).length := by
      intro m hm; rw [hbuf]; exact hfit m (List.mem_cons_of_mem _ hm)
    have hfuel1 : rest.length < fuel := by simp at hfuel; omega
    have hpay : payloads ((mt, data) :: rest) = data ++ payloads rest := by
      simp [payloads]
    rw [Copy, websocketReader_Read_cons c buf mt data rest hc hdata, hpay]
    by_cases hpos : 0 < data.length
    · simp only [hpos, if_true, List.take_left']
      rcases hl : t.writeLimit with _ | k
      · obtain ⟨res, hres, hrec⟩ := ih fuel { t with received := t.received ++ data }
          { c with incoming := rest } (data ++ buf.drop data.length) (written + data.length) rfl
          hrest hfuel1
        refine ⟨res, ?_, ?_⟩
        · simpa [TcpConn.Write, hl, hpos] using hres
        · simpa [hl, accepted] using hrec
      · by_cases hk : data.length ≤ k
        · obtain ⟨res, hres, hrec⟩ := ih fuel
            { t with received := t.received ++ data, writeLimit := some (k - data.length) }
            { c with incoming := rest } (data ++ buf.drop data.length) (written + data.length) rfl
            hrest hfuel1
          refine ⟨res, ?_, ?_⟩
          · simpa [TcpConn.Write, hl, hpos, hk] using hres
          · simp only [accepted] at hrec ⊢
            rw [hrec, List.take_append_eq_append_take, List.take_of_length_le hk]
            simp
        · simp only [TcpConn.Write, hl, hk, if_false, accepted]
          refine ⟨_, rfl, ?_⟩
          have hk1 : k ≤ data.length := by omega
          simp [List.take_append_of_le_length hk1]
    · have hnil : data = [] := List.length_eq_zero.mp (by omega)
      subst hnil
      obtain ⟨res, hres, hrec⟩ := ih fuel t { c with incoming := rest } (buf.drop 0) written rfl
        (by simpa using hrest) hfuel1
      refine ⟨res, ?_, ?_⟩
      · simpa using hres
      · simpa using hrec

theorem TcpConn_Read_nil (t : TcpConn) (buf : List Byte) (h : t.pending = []) :
    t.Read buf = { n := 0, err := some t.readErr, p := buf, next := t } := by
  simp [TcpConn.Read, h]

theorem TcpConn_Read_cons (t : TcpConn) (buf seg : List Byte) (rest : List (List Byte))
    (h : t.pending = seg :: rest) :
    ∃ t1 : TcpConn,
      t.Read buf = { n := min buf.length seg.length, err := none,
                     p := seg.take (min buf.length seg.length)
                            ++ buf.drop (min buf.length seg.length),
                     next := t1 } ∧
      t1.pending.flatten = seg.drop (min buf.length seg.length) ++ rest.flatten ∧
      (0 < buf.length →
        t1.pending.flatten.length + t1.pending.length
          < t.pending.flatten.length + t.pending.length) := by
  by_cases hfit : seg.length ≤ buf.length
  · refine ⟨{ t with pending := rest }, ?_, ?_, ?_⟩
    · simp [TcpConn.Read, h, goCopy, hfit]
    · simp [Nat.min_eq_right hfit]
    · intro _
      simp only [h, List.flatten_cons, List.length_append, List.length_cons]
      omega
  · have hlt : buf.length < seg.length := by omega
    refine ⟨{ t with pending := seg.drop (min buf.length seg.length) :: rest }, ?_, ?_, ?_⟩
    · simp [TcpConn.Read, h, goCopy, hfit]
    · simp
    · intro hpos
      simp only [h, List.flatten_cons, List.length_append, List.length_cons, List.length_drop,
        Nat.min_eq_left (Nat.le_of_lt hlt)]
      omega

theorem websocketWriter_Write_cases (c : WsConn) (p : List Byte) :
    (c.writeLimit = some 0 ∧
      websocketWriter.Write { conn := c } p
        = { n := 0, err := some c.writeErr,
            next := { conn := { c with writeCalls := c.writeCalls + 1 } } }) ∨
    (∃ c1 : WsConn,
      websocketWriter.Write { conn := c } p
        = { n := p.length, err := none, next := { conn := c1 } } ∧
      c1.sent = c.sent ++ [(BinaryMessage, p)] ∧
      (c.writeLimit = none → c1.writeLimit = none)) := by
  rcases hl : c.writeLimit with _ | _ | k
  · right
    refine ⟨{ c with sent := c.sent ++ [(BinaryMessage, p)], writeCalls := c.writeCalls + 1 },
      ?_, rfl, fun _ => hl⟩
    simp [websocketWriter.Write, WsConn.WriteMessage, hl]
  · left
    simp [websocketWriter.Write, WsConn.WriteMessage, hl]
  · right
    refine ⟨{ c with sent := c.sent ++ [(BinaryMessage, p)], writeCalls := c.writeCalls + 1,
                     writeLimit := some k }, ?_, rfl, by simp⟩
    simp [websocketWriter.Write, WsConn.WriteMessage, hl]

theorem payloads_append (a b : List (Nat × List Byte)) :
    payloads (a ++ b) = payloads a ++ payloads b := by
  simp [payloads]

/-- The copy loop from the backend to the framed connection: with a buffer that
is not empty and enough fuel, the loop ends; the bytes it took from the backend
are the payloads of the frames sent, in send order, followed by the chunk `lost`
whose send failed, if one did; with no send failing the loop takes every byte
and loses none; every frame sent is binary, not empty and no longer than the
buffer. -/
theorem Copy_target_to_source :
    ∀ (fuel : Nat) (c : WsConn) (t : TcpConn) (buf : List Byte) (written : Nat),
      0 < buf.length → t.pending.flatten.length + t.pending.length < fuel →
      ∃ res, Copy websocketWriter.Write TcpConn.Read fuel { conn := c } t buf written
          = some res ∧
        (∃ lost, payloads c.sent ++ t.pending.flatten
            = payloads res.dst.conn.sent ++ lost ++ res.src.pending.flatten ∧
          lost.length ≤ buf.length ∧
          (c.writeLimit = none → lost = [] ∧ res.src.pending = [])) ∧
        (∃ new, res.dst.conn.sent = c.sent ++ new ∧
          ∀ f ∈ new, f.1 = BinaryMessage ∧ 0 < f.2.length ∧ f.2.length ≤ buf.length) := by
  intro fuel
  induction fuel with
  | zero => intro c t buf written _ h; omega
  | succ fuel ih =>
    intro c t buf written hbuf hfuel
    rcases hp : t.pending with _ | ⟨seg, rest⟩
    · refine ⟨{ written := written, err := if t.readErr = .EOF then none else some t.readErr,
                dst := { conn := c }, src := t }, ?_,
        ⟨[], by simp [hp], by simp, fun _ => ⟨rfl, hp⟩⟩, ⟨[], by simp, by simp⟩⟩
      simp [Copy, TcpConn_Read_nil t buf hp]
    · obtain ⟨t1, hread, hflat, hdec⟩ := TcpConn_Read_cons t buf seg rest hp
      have hdec1 := hdec hbuf
      have hfuel1 : t1.pending.flatten.length + t1.pending.length < fuel := by omega
      have hq : (seg.take (min buf.length seg.length)
          ++ buf.drop (min buf.length seg.length)).length = buf.length := by
        simp only [List.length_append, List.length_take, List.length_drop]; omega
      have htake : (seg.take (min buf.length seg.length)
          ++ buf.drop (min buf.length seg.length)).take (min buf.length seg.length)
          = seg.take (min buf.length seg.length) := by
        rw [List.take_append_of_le_length (by simp)]
        exact List.take_of_length_le (by simp)
      have hlen : (seg.take (min buf.length seg.length)).length
          = min buf.length seg.length := by simp
      have hsplit : (seg :: rest).flatten
          = seg.take (min buf.length seg.length) ++ t1.pending.flatten := by
        rw [hflat, ← List.append_assoc, List.take_append_drop]; rfl
      rw [Copy, hread]
      by_cases hpos : 0 < min buf.length seg.length
      · simp only [hpos, if_true, htake]
        rcases websocketWriter_Write_cases c (seg.take (min buf.length seg.length)) with
          ⟨hl, hw⟩ | ⟨c1, hw, hsent, hlim⟩
        · rw [hw]
          refine ⟨_, rfl, ⟨seg.take (min buf.length seg.length), ?_, ?_, ?_⟩,
            ⟨[], by simp, by simp⟩⟩
          · simp only [hsplit, List.append_assoc]
          · rw [hlen]; omega
          · intro hnone; rw [hnone] at hl; cases hl
        · rw [hw]
          obtain ⟨res, hres, ⟨lost, hlost, hlostlen, hnone⟩, ⟨new, hnew, hall⟩⟩ :=
            ih c1 t1 _ (written + (seg.take (min buf.length seg.length)).length)
              (by rw [hq]; exact hbuf) hfuel1
          refine ⟨res, ?_, ⟨lost, ?_, by rw [hq] at hlostlen; exact hlostlen,
              fun h => hnone (hlim h)⟩,
            ⟨(BinaryMessage, seg.take (min buf.length seg.length)) :: new, ?_, ?_⟩⟩
          · simpa [hlen, hpos] using hres
          · rw [← hlost, hsent, payloads_append, hsplit]
            simp [payloads]
          · rw [hnew, hsent]; simp
          · intro f hf
            rcases List.mem_cons.mp hf with rfl | hf
            · exact ⟨rfl, by rw [hlen]; exact hpos, by rw [hlen]; omega⟩
            · rw [hq] at hall; exact hall f hf
      · have hseg : seg = [] := by
          have : seg.length = 0 := by omega
          exact List.length_eq_zero.mp this
        subst hseg
        obtain ⟨res, hres, ⟨lost, hlost, hlostlen, hnone⟩, ⟨new, hnew, hall⟩⟩ :=
          ih c t1 _ written (by rw [hq]; exact hbuf) hfuel1
        refine ⟨res, ?_, ⟨lost, ?_, by rw [hq] at hlostlen; exact hlostlen, hnone⟩,
          ⟨new, hnew, ?_⟩⟩
        · simpa using hres
        · rw [← hlost, hsplit]; simp
        · intro f hf; rw [hq] at hall; exact hall f hf

/-- C1, as amended: byte preservation of the relay.  `ReadSource`: when every
message the framed connection delivers fits the buffer of the copy loop, the copy
ends and the bytes written to the backend are the message payloads concatenated
in arrival order, cut where the backend stopped accepting bytes, so all of them
when no write fails.  `ReadTarget`: with a buffer that is not empty the copy ends,
the frames sent are added after the earlier ones, each binary, and the bytes read
from the backend are the payloads of those frames concatenated in send order,
followed by the one chunk `lost` whose send failed, if a send failed; when no
send fails nothing is lost, every byte the backend delivered is read, and the
payloads equal the bytes read. -/
theorem relay_preserves_bytes (p : peer) (buf : List Byte) (fuel : Nat) :
    ((∀ m ∈ p.source.incoming, m.2.length ≤ buf.length) → p.source.incoming.length < fuel →
      ∃ err q, p.ReadSource fuel buf = some (err, q) ∧
        q.target.received
          = p.target.received ++ accepted p.target.writeLimit (payloads p.source.incoming) ∧
        (p.target.writeLimit = none →
          q.target.received = p.target.received ++ payloads p.source.incoming)) ∧
    (0 < buf.length → p.target.pending.flatten.length + p.target.pending.length < fuel →
      ∃ err q, p.ReadTarget fuel buf = some (err, q) ∧
        (∃ tail, payloads p.source.sent ++ p.target.pending.flatten
            = payloads q.source.sent ++ tail ∧
          (p.source.writeLimit = none → tail = [])) ∧
        (∃ lost, payloads p.source.sent ++ p.target.pending.flatten
            = payloads q.source.sent ++ lost ++ q.target.pending.flatten ∧
          lost.length ≤ buf.length ∧
          (p.source.writeLimit = none → lost = [] ∧ q.target.pending = [])) ∧
        (∃ new, q.source.sent = p.source.sent ++ new ∧
          ∀ f ∈ new, f.1 = BinaryMessage ∧ 0 < f.2.length ∧ f.2.length ≤ buf.length)) := by
  refine ⟨?_, ?_⟩
  · intro hfit hfuel
    obtain ⟨res, hres, hrec⟩ :=
      Copy_source_to_target p.source.incoming fuel p.target p.source buf 0 rfl hfit hfuel
    have hacc : p.target.writeLimit = none →
        res.dst.received = p.target.received ++ payloads p.source.incoming := by
      intro hl; rw [hrec, hl]; rfl
    rcases herr : res.err with _ | err
    · exact ⟨none, { p with source := res.src.conn, target := res.dst },
        by simp [peer.ReadSource, hres, herr], hrec, hacc⟩
    · exact ⟨some (errorsWrap err ("copy source(" ++ p.source.remoteAddr ++ ") => target("
          ++ p.target.remoteAddr ++ ") failed")),
        { p with source := res.src.conn, target := res.dst },
        by simp [peer.ReadSource, hres, herr], hrec, hacc⟩
  · intro hbuf hfuel
    obtain ⟨res, hres, ⟨lost, hlost, hlen, hnone⟩, hnew⟩ :=
      Copy_target_to_source fuel p.source p.target buf 0 hbuf hfuel
    have htail : ∃ tail, payloads p.source.sent ++ p.target.pending.flatten
          = payloads res.dst.conn.sent ++ tail ∧
        (p.source.writeLimit = none → tail = []) := by
      refine ⟨lost ++ res.src.pending.flatten, by rw [hlost, List.append_assoc], ?_⟩
      intro h
      obtain ⟨h1, h2⟩ := hnone h
      rw [h1, h2]; rfl
    rcases herr : res.err with _ | err
    · exact ⟨none, { p with source := res.dst.conn, target := res.src },
        by simp [peer.ReadTarget, hres, herr], htail, ⟨lost, hlost, hlen, hnone⟩, hnew⟩
    · exact ⟨some (errorsWrap err ("copy target(" ++ p.target.remoteAddr ++ ") => source("
          ++ p.source.remoteAddr ++ ") failed")),
        { p with source := res.dst.conn, target := res.src },
        by simp [peer.ReadTarget, hres, herr], htail, ⟨lost, hlost, hlen, hnone⟩, hnew⟩

/-- C1 at the scenario of the specification: the client sends one frame
`[1, 2, 3]` and the backend receives exactly `[1, 2, 3]`; and the backend's
segments `[7, 8, 9]`, `[10]`, read through a buffer of 2 bytes, reach the client
as frames whose payloads make `[7, 8, 9, 10]`, with nothing left unread. -/
theorem relay_preserves_bytes_witness :
    (∃ err q, peer123.ReadSource 2 (List.replicate 8 0) = some (err, q) ∧
      q.target.received = [1, 2, 3]) ∧
    (∃ err q, peerBackend.ReadTarget 7 [0, 0] = some (err, q) ∧
      payloads q.source.sent = [7, 8, 9, 10] ∧ q.target.pending = []) := by
  refine ⟨?_, ?_⟩
  · obtain ⟨err, q, hrun, _, hrec⟩ :=
      (relay_preserves_bytes peer123 (List.replicate 8 0) 2).1 (by decide) (by decide)
    exact ⟨err, q, hrun, hrec rfl⟩
  · obtain ⟨err, q, hrun, _, ⟨lost, hlost, _, hnil⟩, _⟩ :=
      (relay_preserves_bytes peerBackend [0, 0] 7).2 (by decide) (by decide)
    obtain ⟨h1, h2⟩ := hnil rfl
    refine ⟨err, q, hrun, ?_, h2⟩
    rw [h1, h2] at hlost
    simpa using hlost.symm

/-- C1 as stated fails for `ReadTarget`: the backend delivers `[7, 8]` and the
framed connection accepts no message any more.  The copy reads `[7, 8]` from the
backend, the send of that chunk fails, `ReadTarget` returns the wrapped error,
and no frame has been sent: the payloads of the frames sent are empty, not the
bytes read. -/
theorem failed_send_loses_chunk :
    brokenBackendPeer.target.pending = [[7, 8]] ∧
    brokenBackendPeer.ReadTarget 2 [0, 0]
      = some (some (errorsWrap (.fundamental "write: broken pipe")
            "copy target(127.0.0.1:5901) => source(10.0.0.7:51234) failed"),
          { brokenBackendPeer with
            source := { brokenBackendPeer.source with writeCalls := 1 },
            target := { brokenBackendPeer.target with pending := [] } }) ∧
    (brokenBackendPeer.ReadTarget 2 [0, 0]).map
        (fun r => (r.2.target.pending, r.2.source.sent, payloads r.2.source.sent))
      = some ([], [], []) ∧
    ¬ (brokenBackendPeer.ReadTarget 2 [0, 0]).map (fun r => payloads r.2.source.sent)
        = some [7, 8] := by
  refine ⟨rfl, by decide, by decide, by decide⟩

/-! ## Construction of a peer -/

theorem String_eq_empty_of_length (s : String) (h : s.length = 0) : s = "" := by
  have hd : s.data = [] := List.length_eq_zero.mp h
  exact String.ext hd

theorem String_length_ne_zero (s : String) (h : s ≠ "") : s.length ≠ 0 :=
  fun h0 => h (String_eq_empty_of_length s h0)

/-- `NewPeer` with a framed connection and an address that is not empty, as a
function of what the network answers to the one dial it makes. -/
theorem NewPeer_dials (net : Net) (ptr : Nat) (ws : WsConn) (addr : String) (dialTimeout : Int)
    (haddr : addr ≠ "") :
    NewPeer net ptr (some ws) addr dialTimeout
      = ((net.DialTimeout "tcp" addr
            (if dialTimeout ≤ 0 then defaultDialTimeout else dialTimeout)).1,
         match net.dial addr (if dialTimeout ≤ 0 then defaultDialTimeout else dialTimeout) with
         | .error err => .error (errorsWrap err "cannot connect to VNC backend")
         | .ok c =>
           match c.keepAliveErr with
           | some err =>
             .error (errorsWrap err "enable VNC backend connection keepalive failed")
           | none =>
             match c.keepAlivePeriodErr with
             | some err =>
               .error (errorsWrap err "set VNC backend connection keepalive period failed")
             | none =>
               .ok { ptr := ptr, source := ws,
                     target := { c with keepAlive := true,
                                        keepAlivePeriod := 30 * 1000000000 } }) := by
  simp only [NewPeer, String_length_ne_zero addr haddr, if_false, Net.DialTimeout]
  rcases net.dial addr (if dialTimeout ≤ 0 then defaultDialTimeout else dialTimeout)
    with err | c
  · rfl
  · simp only [TcpConn.SetKeepAlive, TcpConn.SetKeepAlivePeriod]
    rcases h1 : c.keepAliveErr with _ | e1
    · rcases h2 : c.keepAlivePeriodErr with _ | e2 <;> simp [h2]
    · rfl

/-- C4: `NewPeer` rejects a nil framed connection, and with a framed connection
an empty address, before any network I/O: what it returns then is the fixed
error of the check, no peer and no dial call, the same whatever the network
would answer.  With a framed connection and an address that is not empty it
makes exactly one dial call, the one `net.DialTimeout` reports for this address,
and what it returns is decided by the answer to that call: a refused dial comes
back as the error wrapped, so the network is consulted. -/
theorem NewPeer_validates_before_dial (net : Net) (ptr : Nat) (addr : String)
    (dialTimeout : Int) :
    NewPeer net ptr none addr dialTimeout
      = ([], .error (errorsNew "WebSocket connection is nil")) ∧
    (∀ ws, NewPeer net ptr (some ws) "" dialTimeout = ([], .error (errorsNew "addr is empty"))) ∧
    (∀ (other : Net) (ws : Option WsConn), ws = none ∨ addr = "" →
      NewPeer other ptr ws addr dialTimeout = NewPeer net ptr ws addr dialTimeout) ∧
    (∀ ws, addr ≠ "" →
      ∃ timeout,
        (NewPeer net ptr (some ws) addr dialTimeout).1
          = (net.DialTimeout "tcp" addr timeout).1 ∧
        (NewPeer net ptr (some ws) addr dialTimeout).1
          = [{ network := "tcp", addr := addr, timeout := timeout }] ∧
        (∀ err, net.dial addr timeout = .error err →
          (NewPeer net ptr (some ws) addr dialTimeout).2
            = .error (errorsWrap err "cannot connect to VNC backend")) ∧
        (∀ other : Net, other.dial addr timeout = net.dial addr timeout →
          NewPeer other ptr (some ws) addr dialTimeout
            = NewPeer net ptr (some ws) addr dialTimeout)) := by
  refine ⟨rfl, fun ws => by simp [NewPeer], ?_, ?_⟩
  · intro other ws h
    rcases h with rfl | rfl
    · rfl
    · rcases ws with _ | ws
      · rfl
      · simp [NewPeer]
  · intro ws haddr
    refine ⟨if dialTimeout ≤ 0 then defaultDialTimeout else dialTimeout, ?_, ?_, ?_, ?_⟩
    · rw [NewPeer_dials net ptr ws addr dialTimeout haddr]
    · rw [NewPeer_dials net ptr ws addr dialTimeout haddr]; rfl
    · intro err herr
      rw [NewPeer_dials net ptr ws addr dialTimeout haddr]
      simp only [herr]
    · intro other hsame
      rw [NewPeer_dials net ptr ws addr dialTimeout haddr,
        NewPeer_dials other ptr ws addr dialTimeout haddr]
      simp only [Net.DialTimeout, hsame]

/-- C4 at the address `:5901`: one dial call on a network that answers, and on a
network where no backend answers the refusal of that dial is what `NewPeer`
returns; with the empty address that same network is not asked. -/
theorem NewPeer_validates_before_dial_witness :
    (∃ timeout, (NewPeer reachableNet 0 (some idleWs) ":5901" 0).1
      = [{ network := "tcp", addr := ":5901", timeout := timeout }]) ∧
    (NewPeer unreachableNet 0 (some idleWs) ":5901" 0).2
      = .error (errorsWrap (.fundamental "dial tcp :5901: connect: connection refused")
          "cannot connect to VNC backend") ∧
    NewPeer unreachableNet 0 (some idleWs) "" 0 = NewPeer reachableNet 0 (some idleWs) "" 0 := by
  obtain ⟨t, _, hcalls, _, _⟩ :=
    (NewPeer_validates_before_dial reachableNet 0 ":5901" 0).2.2.2 idleWs (by decide)
  obtain ⟨t2, hsame, _, hrefused, _⟩ :=
    (NewPeer_validates_before_dial unreachableNet 0 ":5901" 0).2.2.2 idleWs (by decide)
  exact ⟨⟨t, hcalls⟩, hrefused _ rfl,
    (NewPeer_validates_before_dial reachableNet 0 "" 0).2.2.1 unreachableNet (some idleWs)
      (Or.inr rfl)⟩

/-! ## The handler up to the relay -/

/-- The calls every run makes between a successful upgrade and the resolver's
answer. -/
theorem ServeWS_begin_resolver_error (p : Proxy) (env : Env) (r : Request) (w : World)
    (conn : WsConn) (err : GoError) (hup : env.upgrade r = .ok conn)
    (hres : p.tokenHandler r = .error err) :
    p.ServeWS_begin env r w
      = ({ w with trace := w.trace ++ [.upgrade, .logDebugf "ServeWS" [],
            .logDebugf "request url: %v" [r.url], .resolve,
            .logInfof "get VNC backend failed: %v" [err.Error], .wsClose conn.fd] }, none) := by
  simp [Proxy.ServeWS_begin, hup, hres, World.emit]

theorem ServeWS_begin_peer_error (p : Proxy) (env : Env) (r : Request) (w : World)
    (conn : WsConn) (addr : String) (dials : List DialCall) (err : GoError)
    (hup : env.upgrade r = .ok conn) (hres : p.tokenHandler r = .ok addr)
    (hnew : NewPeer env.net w.nextPtr (some conn) addr p.dialTimeout = (dials, .error err)) :
    p.ServeWS_begin env r w
      = ({ w with trace := w.trace ++ ([.upgrade, .logDebugf "ServeWS" [],
            .logDebugf "request url: %v" [r.url], .resolve] ++ dials.map Event.dial ++
            [.logInfof "new VNC peer failed: %v" [err.Error], .wsClose conn.fd]) }, none) := by
  simp [Proxy.ServeWS_begin, hup, hres, hnew, World.emit]

theorem ServeWS_begin_active (p : Proxy) (env : Env) (r : Request) (w : World)
    (conn : WsConn) (addr : String) (dials : List DialCall) (pr : peer)
    (hup : env.upgrade r = .ok conn) (hres : p.tokenHandler r = .ok addr)
    (hnew : NewPeer env.net w.nextPtr (some conn) addr p.dialTimeout = (dials, .ok pr)) :
    p.ServeWS_begin env r w
      = ({ maps := Function.update w.maps p.peers (insert pr.ptr (w.maps p.peers)),
           nextMap := w.nextMap, nextPtr := w.nextPtr + 1,
           trace := w.trace ++ ([.upgrade, .logDebugf "ServeWS" [],
            .logDebugf "request url: %v" [r.url], .resolve] ++ dials.map Event.dial ++
            [.addPeer pr.ptr, .goReadTarget pr.ptr, .readSource pr.ptr]) }, some pr) := by
  simp [Proxy.ServeWS_begin, hup, hres, hnew, World.emit, Proxy.addPeer, World.mapAssign]

theorem dialCalls_append (a b : List Event) : dialCalls (a ++ b) = dialCalls a ++ dialCalls b := by
  simp [dialCalls, List.filterMap_append]

theorem dialCalls_map_dial (dials : List DialCall) : dialCalls (dials.map Event.dial) = dials := by
  induction dials with
  | nil => rfl
  | cons d ds ih =>
    simp only [dialCalls, List.map_cons, List.filterMap_cons] at ih ⊢
    rw [ih]

theorem New_fields (conf : Config) (w : World) :
    (New conf w).1.dialTimeout = conf.DialTimeout ∧ (New conf w).2.trace = w.trace ∧
    (New conf w).2.nextPtr = w.nextPtr ∧
    (New conf w).1.members (New conf w).2 = ∅ := by
  simp [New, World.makeMap, Proxy.members]

/-- C5: with a framed connection and an address that is not empty, `NewPeer`
makes its one dial call with 5 seconds when `dialTimeout` is zero or negative and
with `dialTimeout` when it is positive: that is the call `net.DialTimeout`
reports, and what `NewPeer` returns is decided by what the network answers to a
dial with exactly that timeout (a refusal is returned wrapped, an answer with
keepalive set becomes the peer's target, and any other network that answers
this dial alike gives the same result).  With a timeout that is not positive
`NewPeer` returns what it returns for the 5 second default, so such a timeout is
no failure of its own.  A handler of a proxy made by `New` dials with the
timeout so derived from `Config.DialTimeout`, and its run is decided by the
answer to that dial. -/
theorem NewPeer_dial_timeout_default (net : Net) (ptr : Nat) (ws : WsConn) (addr : String)
    (dialTimeout : Int) (haddr : addr ≠ "") :
    (NewPeer net ptr (some ws) addr dialTimeout).1
      = (net.DialTimeout "tcp" addr
          (if dialTimeout ≤ 0 then 5 * 1000000000 else dialTimeout)).1 ∧
    (NewPeer net ptr (some ws) addr dialTimeout).1
      = [{ network := "tcp", addr := addr,
           timeout := if dialTimeout ≤ 0 then 5 * 1000000000 else dialTimeout }] ∧
    (∀ other : Net,
      other.dial addr (if dialTimeout ≤ 0 then 5 * 1000000000 else dialTimeout)
        = net.dial addr (if dialTimeout ≤ 0 then 5 * 1000000000 else dialTimeout) →
      NewPeer other ptr (some ws) addr dialTimeout = NewPeer net ptr (some ws) addr dialTimeout) ∧
    (∀ err, net.dial addr (if dialTimeout ≤ 0 then 5 * 1000000000 else dialTimeout) = .error err →
      (NewPeer net ptr (some ws) addr dialTimeout).2
        = .error (errorsWrap err "cannot connect to VNC backend")) ∧
    (∀ c, net.dial addr (if dialTimeout ≤ 0 then 5 * 1000000000 else dialTimeout) = .ok c →
      c.keepAliveErr = none → c.keepAlivePeriodErr = none →
      (NewPeer net ptr (some ws) addr dialTimeout).2
        = .ok { ptr := ptr, source := ws,
                target := { c with keepAlive := true, keepAlivePeriod := 30 * 1000000000 } }) ∧
    (dialTimeout ≤ 0 →
      NewPeer net ptr (some ws) addr dialTimeout
        = NewPeer net ptr (some ws) addr defaultDialTimeout) ∧
    (∀ (conf : Config) (env : Env) (r : Request) (w : World) (conn : WsConn),
      env.upgrade r = .ok conn → (New conf w).1.tokenHandler r = .ok addr →
      dialCalls ((New conf w).1.ServeWS_begin env r (New conf w).2).1.trace
        = dialCalls w.trace ++
          [{ network := "tcp", addr := addr,
             timeout := if conf.DialTimeout ≤ 0 then 5 * 1000000000 else conf.DialTimeout }] ∧
      ∀ other : Env, other.upgrade r = env.upgrade r →
        other.net.dial addr (if conf.DialTimeout ≤ 0 then 5 * 1000000000 else conf.DialTimeout)
          = env.net.dial addr
              (if conf.DialTimeout ≤ 0 then 5 * 1000000000 else conf.DialTimeout) →
        (New conf w).1.ServeWS_begin other r (New conf w).2
          = (New conf w).1.ServeWS_begin env r (New conf w).2) := by
  have hdef : ∀ t : Int, (if t ≤ 0 then defaultDialTimeout else t)
      = (if t ≤ 0 then 5 * 1000000000 else t) := fun _ => rfl
  have hsame : ∀ (n1 n2 : Net) (ptr : Nat) (ws : WsConn) (t : Int),
      n1.dial addr (if t ≤ 0 then 5 * 1000000000 else t)
        = n2.dial addr (if t ≤ 0 then 5 * 1000000000 else t) →
      NewPeer n1 ptr (some ws) addr t = NewPeer n2 ptr (some ws) addr t := by
    intro n1 n2 ptr ws t h
    rw [NewPeer_dials n1 ptr ws addr t haddr, NewPeer_dials n2 ptr ws addr t haddr]
    simp only [Net.DialTimeout, hdef, h]
  have hone : ∀ (net : Net) (ptr : Nat) (ws : WsConn) (t : Int),
      (NewPeer net ptr (some ws) addr t).1
        = [{ network := "tcp", addr := addr,
             timeout := if t ≤ 0 then 5 * 1000000000 else t }] := by
    intro net ptr ws t
    rw [NewPeer_dials net ptr ws addr t haddr]
    rfl
  refine ⟨?_, hone net ptr ws dialTimeout, fun other h => hsame other net ptr ws dialTimeout h,
    ?_, ?_, ?_, ?_⟩
  · rw [NewPeer_dials net ptr ws addr dialTimeout haddr]; rfl
  · intro err herr
    rw [NewPeer_dials net ptr ws addr dialTimeout haddr]
    simp only [hdef, herr]
  · intro c hc h1 h2
    rw [NewPeer_dials net ptr ws addr dialTimeout haddr]
    simp only [hdef, hc, h1, h2]
  · intro hle
    have hd : (if dialTimeout ≤ 0 then defaultDialTimeout else dialTimeout)
        = (if defaultDialTimeout ≤ 0 then defaultDialTimeout else defaultDialTimeout) := by
      simp [hle]
    simp only [NewPeer, hd]
  · intro conf env r w conn hup hres
    obtain ⟨htime, htrace, _, _⟩ := New_fields conf w
    have hdials := hone env.net (New conf w).2.nextPtr conn (New conf w).1.dialTimeout
    refine ⟨?_, ?_⟩
    · rcases hnew : NewPeer env.net (New conf w).2.nextPtr (some conn) addr
          (New conf w).1.dialTimeout with ⟨dials, err | pr⟩
      · rw [ServeWS_begin_peer_error _ env r _ conn addr dials err hup hres hnew]
        rw [hnew] at hdials
        have hd : dials = _ := hdials
        simp only [dialCalls_append, dialCalls_map_dial, htrace]
        rw [hd, htime]
        simp [dialCalls]
      · rw [ServeWS_begin_active _ env r _ conn addr dials pr hup hres hnew]
        rw [hnew] at hdials
        have hd : dials = _ := hdials
        simp only [dialCalls_append, dialCalls_map_dial, htrace]
        rw [hd, htime]
        simp [dialCalls]
    · intro other hup2 hdial
      rw [← htime] at hdial
      have hnp := hsame other.net env.net (New conf w).2.nextPtr conn
        (New conf w).1.dialTimeout hdial
      rcases hnew : NewPeer env.net (New conf w).2.nextPtr (some conn) addr
          (New conf w).1.dialTimeout with ⟨dials, err | pr⟩
      · rw [ServeWS_begin_peer_error _ env r _ conn addr dials err hup hres hnew,
          ServeWS_begin_peer_error _ other r _ conn addr dials err (hup2.trans hup) hres
            (hnp.trans hnew)]
      · rw [ServeWS_begin_active _ env r _ conn addr dials pr hup hres hnew,
          ServeWS_begin_active _ other r _ conn addr dials pr (hup2.trans hup) hres
            (hnp.trans hnew)]

/-- C5 at the scenario of the specification: `dialTimeout = -1` dials with 5
seconds; on a network that answers only a dial made with 5 seconds,
construction with `dialTimeout = -1` succeeds; and on a network that answers only
a dial made with 7 seconds, construction with `dialTimeout` of 7 seconds
succeeds. -/
theorem NewPeer_dial_timeout_default_witness :
    (NewPeer reachableNet 0 (some idleWs) ":5901" (-1)).1
      = [{ network := "tcp", addr := ":5901", timeout := 5000000000 }] ∧
    (NewPeer (onlyAt 5000000000) 0 (some idleWs) ":5901" (-1)).2 = .ok firstPeer ∧
    (NewPeer (onlyAt 7000000000) 0 (some idleWs) ":5901" 7000000000).2 = .ok firstPeer :=
  ⟨(NewPeer_dial_timeout_default reachableNet 0 idleWs ":5901" (-1) (by decide)).2.1,
   (NewPeer_dial_timeout_default (onlyAt 5000000000) 0 idleWs ":5901" (-1)
      (by decide)).2.2.2.2.1 idleTcp rfl rfl rfl,
   (NewPeer_dial_timeout_default (onlyAt 7000000000) 0 idleWs ":5901" 7000000000
      (by decide)).2.2.2.2.1 idleTcp rfl rfl rfl⟩

/-- C7: after a successful upgrade, a run in which the resolver or `NewPeer`
fails returns without a session: it closes the framed connection, calls neither
`addPeer` nor `deletePeer`, starts no relay direction and leaves every map object,
so the membership of the registry, as it was; when the resolver fails the run
makes no dial call, and its calls are the same whatever the network is. -/
theorem ServeWS_failure_before_active (p : Proxy) (env : Env) (r : Request) (w : World)
    (conn : WsConn) (hup : env.upgrade r = .ok conn) :
    (∀ err, p.tokenHandler r = .error err →
      ∃ new, p.ServeWS_begin env r w = ({ w with trace := w.trace ++ new }, none) ∧
        Event.wsClose conn.fd ∈ new ∧
        (∀ e ∈ new, e.isRegistryCall = false ∧ e.isRelayStart = false) ∧
        dialCalls new = [] ∧
        p.members { w with trace := w.trace ++ new } = p.members w ∧
        (∀ net, p.ServeWS_begin { env with net := net } r w = p.ServeWS_begin env r w)) ∧
    (∀ addr err, p.tokenHandler r = .ok addr →
      (NewPeer env.net w.nextPtr (some conn) addr p.dialTimeout).2 = .error err →
      ∃ new, p.ServeWS_begin env r w = ({ w with trace := w.trace ++ new }, none) ∧
        Event.wsClose conn.fd ∈ new ∧
        (∀ e ∈ new, e.isRegistryCall = false ∧ e.isRelayStart = false) ∧
        p.members { w with trace := w.trace ++ new } = p.members w) := by
  refine ⟨?_, ?_⟩
  · intro err hres
    refine ⟨_, ServeWS_begin_resolver_error p env r w conn err hup hres, by simp, ?_, rfl, rfl,
      ?_⟩
    · intro e he
      simp only [List.mem_cons, List.mem_singleton, List.not_mem_nil, or_false] at he
      rcases he with rfl | rfl | rfl | rfl | rfl | rfl <;> exact ⟨rfl, rfl⟩
    · intro net
      rw [ServeWS_begin_resolver_error p env r w conn err hup hres,
        ServeWS_begin_resolver_error p { env with net := net } r w conn err hup hres]
  · intro addr err hres hnew
    rcases hnp : NewPeer env.net w.nextPtr (some conn) addr p.dialTimeout with ⟨dials, res⟩
    rw [hnp] at hnew
    simp only at hnew
    subst hnew
    refine ⟨_, ServeWS_begin_peer_error p env r w conn addr dials err hup hres hnp, by simp, ?_,
      rfl⟩
    intro e he
    simp only [List.mem_append, List.mem_cons, List.mem_singleton, List.not_mem_nil, or_false,
      List.mem_map] at he
    rcases he with ((rfl | rfl | rfl | rfl) | ⟨d, _, rfl⟩) | rfl | rfl <;> exact ⟨rfl, rfl⟩

/-- C7 at the scenario of the specification: the resolver returns an error on an
empty registry, the run returns without a session and the registry is empty; and
the same when the resolver answers and the backend refuses the connection. -/
theorem ServeWS_failure_before_active_witness :
    (((New refusingConfig World.init).1.ServeWS_begin plainEnv { url := "/ws" }
        (New refusingConfig World.init).2).2 = none ∧
      (New refusingConfig World.init).1.members
        ((New refusingConfig World.init).1.ServeWS_begin plainEnv { url := "/ws" }
          (New refusingConfig World.init).2).1 = ∅) ∧
    ((zeroProxy.ServeWS_begin deadEnv { url := "/ws" } zeroWorld).2 = none ∧
      zeroProxy.members (zeroProxy.ServeWS_begin deadEnv { url := "/ws" } zeroWorld).1 = ∅) := by
  refine ⟨?_, ?_⟩
  · obtain ⟨new, hrun, _, _, _, hmem, _⟩ :=
      (ServeWS_failure_before_active (New refusingConfig World.init).1 plainEnv { url := "/ws" }
        (New refusingConfig World.init).2 idleWs rfl).1 (errorsNew "unknown token") rfl
    rw [hrun]
    exact ⟨rfl, hmem.trans (New_fields refusingConfig World.init).2.2.2⟩
  · obtain ⟨new, hrun, _, _, hmem⟩ :=
      (ServeWS_failure_before_active zeroProxy deadEnv { url := "/ws" } zeroWorld idleWs rfl).2
        ":5901" (errorsWrap (.fundamental "dial tcp :5901: connect: connection refused")
          "cannot connect to VNC backend") rfl rfl
    rw [hrun]
    exact ⟨rfl, hmem.trans (New_fields zeroConfig World.init).2.2.2⟩

/-! ## The session -/

theorem NewPeer_ok_inv (net : Net) (ptr : Nat) (ws : Option WsConn) (addr : String)
    (dialTimeout : Int) (dials : List DialCall) (pr : peer)
    (h : NewPeer net ptr ws addr dialTimeout = (dials, .ok pr)) :
    pr.ptr = ptr ∧ ws = some pr.source := by
  unfold NewPeer at h
  split at h
  · simp at h
  · split at h
    · simp at h
    · simp only at h
      split at h
      · simp at h
      · split at h
        · simp at h
        · split at h
          · simp at h
          · simp only [Prod.mk.injEq, Except.ok.injEq] at h
            obtain ⟨_, rfl⟩ := h
            exact ⟨rfl, rfl⟩

theorem ServeWS_begin_some_inv (p : Proxy) (env : Env) (r : Request) (w w1 : World) (pr : peer)
    (h : p.ServeWS_begin env r w = (w1, some pr)) :
    ∃ dials : List DialCall,
      pr.ptr = w.nextPtr ∧
      w1 = { maps := Function.update w.maps p.peers (insert pr.ptr (w.maps p.peers)),
             nextMap := w.nextMap, nextPtr := w.nextPtr + 1,
             trace := w.trace ++ ([.upgrade, .logDebugf "ServeWS" [],
               .logDebugf "request url: %v" [r.url], .resolve] ++ dials.map Event.dial ++
               [.addPeer pr.ptr, .goReadTarget pr.ptr, .readSource pr.ptr]) } := by
  rcases hup : env.upgrade r with err | conn
  · simp [Proxy.ServeWS_begin, hup] at h
  · rcases hres : p.tokenHandler r with err | addr
    · rw [ServeWS_begin_resolver_error p env r w conn err hup hres] at h
      simp at h
    · rcases hnew : NewPeer env.net w.nextPtr (some conn) addr p.dialTimeout with
        ⟨dials, err | pr1⟩
      · rw [ServeWS_begin_peer_error p env r w conn addr dials err hup hres hnew] at h
        simp at h
      · rw [ServeWS_begin_active p env r w conn addr dials pr1 hup hres hnew] at h
        simp only [Prod.mk.injEq, Option.some.injEq] at h
        obtain ⟨hw, rfl⟩ := h
        exact ⟨dials, (NewPeer_ok_inv _ _ _ _ _ _ _ hnew).1, hw.symm⟩

theorem relayReturned_logs (p : Proxy) (err : Option GoError) (w : World) :
    ∃ logs, p.relayReturned err w = { w with trace := w.trace ++ logs } ∧
      ∀ e ∈ logs, e.isLog = true := by
  rcases err with _ | e
  · exact ⟨[], by simp [Proxy.relayReturned], by simp⟩
  · by_cases hc : stringsContains e.Error closedConnText = true
    · exact ⟨[], by simp [Proxy.relayReturned, hc], by simp⟩
    · exact ⟨[.logInfo [e.Error]], by simp [Proxy.relayReturned, hc, World.emit],
        by simp [Event.isLog]⟩

theorem ServeWS_end_eq (p : Proxy) (pr : peer) (err : Option GoError) (w : World) :
    ∃ logs, p.ServeWS_end pr err w
        = { w with maps := Function.update w.maps p.peers ((w.maps p.peers).erase pr.ptr),
                   trace := w.trace ++ (logs ++ [.logInfo ["close peer"], .deletePeer pr.ptr,
                     .wsClose pr.source.fd, .tcpClose pr.target.fd]) } ∧
      ∀ e ∈ logs, e.isLog = true := by
  obtain ⟨logs, hlogs, hall⟩ := relayReturned_logs p err w
  refine ⟨logs, ?_, hall⟩
  simp [Proxy.ServeWS_end, hlogs, Proxy.deletePeer, peer.Close, World.emit, World.mapDelete]

/-- Relay events that do not make `ServeWS` return, because they are the
goroutine's or because it has returned already, only add log calls. -/
theorem run_quiet (p : Proxy) (es : List RelayEvent) :
    ∀ (s : Session) (w : World),
      (∀ e ∈ es, (∃ x, e = .targetReturned x) ∨ s.returned = true) →
      ∃ logs, (p.run s es w).2 = { w with trace := w.trace ++ logs } ∧
        (∀ e ∈ logs, e.isLog = true) ∧
        (p.run s es w).1.pr = s.pr ∧ (p.run s es w).1.returned = s.returned := by
  induction es with
  | nil => intro s w _; exact ⟨[], by simp [Proxy.run], by simp, rfl, rfl⟩
  | cons e es ih =>
    intro s w h
    have hstep : ∃ logs, (p.step s e w).2 = { w with trace := w.trace ++ logs } ∧
        (∀ x ∈ logs, x.isLog = true) ∧
        (p.step s e w).1.pr = s.pr ∧ (p.step s e w).1.returned = s.returned := by
      rcases e with x | x
      · by_cases hg : s.goEnded = true
        · exact ⟨[], by simp [Proxy.step, hg], by simp, by simp [Proxy.step, hg],
            by simp [Proxy.step, hg]⟩
        · obtain ⟨logs, hlogs, hall⟩ := relayReturned_logs p x w
          exact ⟨logs, by simp [Proxy.step, hg, Proxy.ServeWS_go, hlogs], hall,
            by simp [Proxy.step, hg], by simp [Proxy.step, hg]⟩
      · have hret : s.returned = true := by
          rcases h _ (List.mem_cons_self _ _) with ⟨y, hy⟩ | hr
          · cases hy
          · exact hr
        exact ⟨[], by simp [Proxy.step, hret], by simp, by simp [Proxy.step, hret],
          by simp [Proxy.step, hret]⟩
    obtain ⟨l1, hw1, hall1, hpr1, hret1⟩ := hstep
    obtain ⟨l2, hw2, hall2, hpr2, hret2⟩ := ih (p.step s e w).1 (p.step s e w).2 (by
      intro e1 he1
      rcases h e1 (List.mem_cons_of_mem _ he1) with hx | hr
      · exact Or.inl hx
      · exact Or.inr (by rw [hret1]; exact hr))
    refine ⟨l1 ++ l2, ?_, ?_, ?_, ?_⟩
    · simp only [Proxy.run]
      rw [hw2, hw1]
      simp
    · intro x hx
      rcases List.mem_append.mp hx with hx | hx
      · exact hall1 x hx
      · exact hall2 x hx
    · simp only [Proxy.run]; rw [hpr2, hpr1]
    · simp only [Proxy.run]; rw [hret2, hret1]

theorem run_cons (p : Proxy) (s : Session) (e : RelayEvent) (es : List RelayEvent) (w : World) :
    p.run s (e :: es) w = p.run (p.step s e w).1 es (p.step s e w).2 := rfl

theorem run_append (p : Proxy) (es1 es2 : List RelayEvent) :
    ∀ (s : Session) (w : World),
      p.run s (es1 ++ es2) w = p.run (p.run s es1 w).1 es2 (p.run s es1 w).2 := by
  induction es1 with
  | nil => intro s w; rfl
  | cons e es ih =>
    intro s w
    show p.run (p.step s e w).1 (es ++ es2) (p.step s e w).2 = _
    rw [ih]
    rfl

/-- A run that has entered `ReadSource`, through relay events and the return of
`ReadSource`, as one world: the goroutine's events `es1` only log, the return
runs `ServeWS_end`, and later events `es2` only log. -/
theorem run_to_return (p : Proxy) (pr : peer) (w1 : World) (es1 es2 : List RelayEvent)
    (err : Option GoError) (hes1 : ∀ e ∈ es1, ∃ x, e = RelayEvent.targetReturned x) :
    ∃ logs1 logsE logs2,
      (p.run (Session.start pr) es1 w1).2 = { w1 with trace := w1.trace ++ logs1 } ∧
      (p.run (Session.start pr) es1 w1).1.returned = false ∧
      (p.run (Session.start pr) (es1 ++ .sourceReturned err :: es2) w1).2
        = { w1 with
            maps := Function.update w1.maps p.peers ((w1.maps p.peers).erase pr.ptr),
            trace := w1.trace ++ (logs1 ++ logsE ++ [.logInfo ["close peer"], .deletePeer pr.ptr,
              .wsClose pr.source.fd, .tcpClose pr.target.fd] ++ logs2) } ∧
      (p.run (Session.start pr) (es1 ++ .sourceReturned err :: es2) w1).1.returned = true ∧
      ∀ e ∈ logs1 ++ logsE ++ logs2, e.isLog = true := by
  obtain ⟨logs1, hmid, hall1, hpr1, hret1⟩ :=
    run_quiet p es1 (Session.start pr) w1 (fun e he => Or.inl (hes1 e he))
  have hret1f : (p.run (Session.start pr) es1 w1).1.returned = false := by
    rw [hret1]; rfl
  have hpr : (p.run (Session.start pr) es1 w1).1.pr = pr := by rw [hpr1]; rfl
  obtain ⟨logsE, hend, hallE⟩ := ServeWS_end_eq p pr err (p.run (Session.start pr) es1 w1).2
  have hstep : p.step (p.run (Session.start pr) es1 w1).1 (.sourceReturned err)
        (p.run (Session.start pr) es1 w1).2
      = ({ (p.run (Session.start pr) es1 w1).1 with returned := true },
          p.ServeWS_end pr err (p.run (Session.start pr) es1 w1).2) := by
    simp [Proxy.step, hret1f, hpr]
  obtain ⟨logs2, hfin, hall2, _, hret2⟩ :=
    run_quiet p es2 { (p.run (Session.start pr) es1 w1).1 with returned := true }
      (p.ServeWS_end pr err (p.run (Session.start pr) es1 w1).2) (fun _ _ => Or.inr rfl)
  have hrun : p.run (Session.start pr) (es1 ++ .sourceReturned err :: es2) w1
      = p.run { (p.run (Session.start pr) es1 w1).1 with returned := true } es2
          (p.ServeWS_end pr err (p.run (Session.start pr) es1 w1).2) := by
    rw [run_append, run_cons, hstep]
  refine ⟨logs1, logsE, logs2, hmid, hret1f, ?_, ?_, ?_⟩
  · rw [hrun, hfin, hend, hmid]
    simp
  · rw [hrun, hret2]
  · intro e he
    rcases List.mem_append.mp he with he | he
    · rcases List.mem_append.mp he with he | he
      · exact hall1 e he
      · exact hallE e he
    · exact hall2 e he

theorem isLog_not_registry (e : Event) (h : e.isLog = true) :
    e.isRegistryCall = false ∧ e.isClose = false := by
  cases e <;> simp_all [Event.isLog, Event.isRegistryCall, Event.isClose]

/-- C8: a run of `ServeWS` in which `NewPeer` succeeded and `ReadSource` returns
calls `addPeer` once and then `deletePeer` once on its session, whatever the
goroutine does before (`es1`) or after (`es2`) and whatever `ReadSource` returned;
the two `Close` calls on the session's connections follow that `deletePeer` and
there is no other; the session is a member from `addPeer` until `ReadSource`
returns and not a member afterwards, and every other session is a member after
the run exactly when it was before.  Consequently, on a registry that was
empty, a second session started while the first is active makes 2 members, and
after both have returned, in either order, there are none. -/
theorem session_registered_once (p : Proxy) (env : Env) (r : Request) (w w1 : World) (pr : peer)
    (hbegin : p.ServeWS_begin env r w = (w1, some pr))
    (es1 es2 : List RelayEvent) (err : Option GoError)
    (hes1 : ∀ e ∈ es1, ∃ x, e = RelayEvent.targetReturned x) :
    (∃ l0 l1 l2,
      (p.run (Session.start pr) (es1 ++ .sourceReturned err :: es2) w1).2.trace
        = w.trace ++ (l0 ++ [.addPeer pr.ptr] ++ l1 ++
            [.deletePeer pr.ptr, .wsClose pr.source.fd, .tcpClose pr.target.fd] ++ l2) ∧
      ∀ e ∈ l0 ++ l1 ++ l2, e.isRegistryCall = false ∧ e.isClose = false) ∧
    (p.run (Session.start pr) (es1 ++ .sourceReturned err :: es2) w1).1.returned = true ∧
    pr.ptr ∈ p.members w1 ∧
    pr.ptr ∈ p.members (p.run (Session.start pr) es1 w1).2 ∧
    pr.ptr ∉ p.members (p.run (Session.start pr) (es1 ++ .sourceReturned err :: es2) w1).2 ∧
    (∀ q, q ≠ pr.ptr →
      (q ∈ p.members (p.run (Session.start pr) (es1 ++ .sourceReturned err :: es2) w1).2
        ↔ q ∈ p.members w)) ∧
    (∀ (env2 : Env) (r2 : Request) (w2 : World) (pr2 : peer),
      p.members w = ∅ → p.ServeWS_begin env2 r2 w1 = (w2, some pr2) →
      (p.members w2).card = 2 ∧
      ∀ e1 e2 : Option GoError,
        p.members (p.ServeWS_end pr2 e2 (p.ServeWS_end pr e1 w2)) = ∅ ∧
        p.members (p.ServeWS_end pr e1 (p.ServeWS_end pr2 e2 w2)) = ∅) := by
  obtain ⟨dials, hptr, hw1⟩ := ServeWS_begin_some_inv p env r w w1 pr hbegin
  obtain ⟨logs1, logsE, logs2, hmid, _, hfin, hret, hall⟩ :=
    run_to_return p pr w1 es1 es2 err hes1
  have hmem1 : pr.ptr ∈ p.members w1 := by
    rw [hw1]; simp [Proxy.members]
  refine ⟨⟨[.upgrade, .logDebugf "ServeWS" [], .logDebugf "request url: %v" [r.url], .resolve]
      ++ dials.map Event.dial,
    [.goReadTarget pr.ptr, .readSource pr.ptr] ++ logs1 ++ logsE ++ [.logInfo ["close peer"]],
    logs2, ?_, ?_⟩, hret, hmem1, ?_, ?_, ?_, ?_⟩
  · rw [hfin, hw1]; simp
  · intro e he
    simp only [List.mem_append, List.mem_cons, List.mem_singleton, List.not_mem_nil, or_false,
      List.mem_map] at he
    have hlog : ∀ x, x ∈ logs1 ∨ x ∈ logsE ∨ x ∈ logs2 → x.isLog = true := by
      intro x hx
      apply hall x
      simp only [List.mem_append]
      tauto
    rcases he with (((rfl | rfl | rfl | rfl) | ⟨d, _, rfl⟩) |
      (((rfl | rfl) | h1) | hE) | rfl) | h2
    all_goals first
      | exact ⟨rfl, rfl⟩
      | exact isLog_not_registry _ (hlog _ (by tauto))
  · rw [hmid]; exact hmem1
  · rw [hfin]; simp [Proxy.members]
  · intro q hq
    rw [hfin, hw1]
    simp [Proxy.members, hq]
  · intro env2 r2 w2 pr2 hempty hbegin2
    obtain ⟨dials2, hptr2, hw2⟩ := ServeWS_begin_some_inv p env2 r2 w1 w2 pr2 hbegin2
    have hne : pr2.ptr ≠ pr.ptr := by
      rw [hptr2, hptr, hw1]; simp
    have hmaps : w.maps p.peers = ∅ := hempty
    refine ⟨?_, ?_⟩
    · rw [hw2, hw1]
      simp [Proxy.members, hmaps, Finset.card_pair hne]
    · intro e1 e2
      obtain ⟨la, ha, _⟩ := ServeWS_end_eq p pr e1 w2
      obtain ⟨lb, hb, _⟩ := ServeWS_end_eq p pr2 e2 (p.ServeWS_end pr e1 w2)
      obtain ⟨lc, hc, _⟩ := ServeWS_end_eq p pr2 e2 w2
      obtain ⟨ld, hd, _⟩ := ServeWS_end_eq p pr e1 (p.ServeWS_end pr2 e2 w2)
      refine ⟨?_, ?_⟩
      · rw [hb, ha, hw2, hw1]
        simp [Proxy.members, hmaps, Finset.ext_iff]
        intro a; omega
      · rw [hd, hc, hw2, hw1]
        simp [Proxy.members, hmaps, Finset.ext_iff]
        intro a; omega

theorem oneActive_begin :
    zeroProxy.ServeWS_begin plainEnv { url := "/ws" } zeroWorld = (oneActive, some firstPeer) :=
  rfl

theorem twoActive_begin :
    zeroProxy.ServeWS_begin plainEnv { url := "/ws" } oneActive = (twoActive, some secondPeer) :=
  rfl

/-- C8 at the scenario of the specification: two sessions on a registry that was
empty make 2 members while both are active and none after both have returned. -/
theorem session_registered_once_witness :
    (zeroProxy.members twoActive).card = 2 ∧
    zeroProxy.members
      (zeroProxy.ServeWS_end secondPeer none (zeroProxy.ServeWS_end firstPeer none twoActive))
      = ∅ := by
  have h := (session_registered_once zeroProxy plainEnv { url := "/ws" } zeroWorld oneActive
    firstPeer oneActive_begin [] [] none (by simp)).2.2.2.2.2.2 plainEnv { url := "/ws" }
    twoActive secondPeer (New_fields zeroConfig World.init).2.2.2 twoActive_begin
  exact ⟨h.1, (h.2 none none).1⟩

/-- C6, the code at the failing input: for a session that `ServeWS_begin` has
made active, after the goroutine's `ReadTarget` has returned (any events `es` of
the goroutine, with any result) and while `ReadSource` has not, `ServeWS` has not
returned, the session is still a member of the registry, and nothing but log
calls has been made: no `deletePeer` and no `Close`. -/
theorem target_return_leaves_session_active (p : Proxy) (env : Env) (r : Request)
    (w w1 : World) (pr : peer) (hbegin : p.ServeWS_begin env r w = (w1, some pr))
    (es : List RelayEvent) (hes : ∀ e ∈ es, ∃ x, e = RelayEvent.targetReturned x) :
    (p.run (Session.start pr) es w1).1.returned = false ∧
    pr.ptr ∈ p.members (p.run (Session.start pr) es w1).2 ∧
    ∃ logs, (p.run (Session.start pr) es w1).2.trace = w1.trace ++ logs ∧
      ∀ e ∈ logs, e.isRegistryCall = false ∧ e.isClose = false := by
  obtain ⟨dials, _, hw1⟩ := ServeWS_begin_some_inv p env r w w1 pr hbegin
  obtain ⟨logs, hmid, hall, _, hret⟩ :=
    run_quiet p es (Session.start pr) w1 (fun e he => Or.inl (hes e he))
  refine ⟨by rw [hret]; rfl, ?_, logs, by rw [hmid], fun e he => isLog_not_registry e (hall e he)⟩
  rw [hmid, hw1]
  simp [Proxy.members]

/-- C6 at the scenario of the specification: the backend closes, `ReadTarget`
returns nil in the goroutine, and the session is still registered with both
connections open. -/
theorem target_return_leaves_session_active_witness :
    (zeroProxy.run (Session.start firstPeer) [.targetReturned none] oneActive).1.returned = false ∧
    firstPeer.ptr ∈
      zeroProxy.members (zeroProxy.run (Session.start firstPeer) [.targetReturned none]
        oneActive).2 ∧
    (zeroProxy.run (Session.start firstPeer) [.targetReturned none] oneActive).2.trace
      = oneActive.trace := by
  obtain ⟨hret, hmem, _⟩ := target_return_leaves_session_active zeroProxy plainEnv
    { url := "/ws" } zeroWorld oneActive firstPeer oneActive_begin [.targetReturned none]
    (by simp)
  exact ⟨hret, hmem, rfl⟩

/-- C9, the code at the failing input: `Peers` returns the reference the proxy
holds, so an assignment to or a deletion from the returned map changes the
membership of the registry, and a later `addPeer` or `deletePeer` changes the map
the caller got. -/
theorem Peers_returns_live_map (p : Proxy) (w : World) (k : Nat) (pr : peer) :
    p.Peers = p.peers ∧
    p.members (w.mapAssign p.Peers k) = insert k (p.members w) ∧
    p.members (w.mapDelete p.Peers k) = (p.members w).erase k ∧
    (p.addPeer pr w).maps p.Peers = insert pr.ptr (w.maps p.Peers) ∧
    (p.deletePeer pr w).maps p.Peers = (w.maps p.Peers).erase pr.ptr := by
  simp [Proxy.Peers, Proxy.members, World.mapAssign, World.mapDelete, Proxy.addPeer,
    Proxy.deletePeer, peer.Close, World.emit]

/-- On the registry with one session, a caller that deletes the session from the
map `Peers` returned has emptied the registry, with no `deletePeer` call and the
session's connections open. -/
theorem Peers_leak_empties_registry :
    zeroProxy.members oneActive = {0} ∧
    zeroProxy.members (oneActive.mapDelete zeroProxy.Peers 0) = ∅ ∧
    (oneActive.mapDelete zeroProxy.Peers 0).trace = oneActive.trace := by
  obtain ⟨dials, _, hw⟩ := ServeWS_begin_some_inv _ _ _ _ _ _ oneActive_begin
  refine ⟨?_, ?_, rfl⟩
  · rw [hw]
    simp [Proxy.members, firstPeer, zeroWorld, New, World.makeMap, World.init, zeroProxy]
  · rw [hw]
    simp [Proxy.members, Proxy.Peers, World.mapDelete, firstPeer, zeroWorld, New,
      World.makeMap, World.init, zeroProxy]

/-! ## Classification of relay errors -/

/-- A list that does not hold `c` and occurs in `x ++ c :: y` occurs in `x` or
in `y`. -/
theorem infix_of_infix_sep {α : Type} (l x y : List α) (c : α) (hc : c ∉ l)
    (h : l <:+: x ++ c :: y) : l <:+: x ∨ l <:+: y := by
  obtain ⟨s, t, hst⟩ := h
  rcases List.append_eq_append_iff.mp hst with ⟨a, hx, _⟩ | ⟨b, hsl, hcy⟩
  · exact Or.inl ⟨s, a, hx.symm⟩
  · rcases b with _ | ⟨b0, b⟩
    · exact Or.inl ⟨s, [], by simpa using hsl⟩
    · simp only [List.cons_append, List.cons.injEq] at hcy
      obtain ⟨rfl, hy⟩ := hcy
      rcases List.append_eq_append_iff.mp hsl with ⟨a, _, hl⟩ | ⟨d, hs, hd⟩
      · exact absurd (by rw [hl]; simp) hc
      · rcases d with _ | ⟨d0, d⟩
        · simp only [List.nil_append] at hd
          exact absurd (by rw [← hd]; simp) hc
        · simp only [List.cons_append, List.cons.injEq] at hd
          obtain ⟨_, hb⟩ := hd
          exact Or.inr ⟨d, t, by rw [hy, hb]⟩

theorem closedConnText_length : closedConnText.data.length = 32 := by decide

theorem stringsContains_iff (s sub : String) :
    stringsContains s sub = true ↔ sub.data <:+: s.data := by
  simp [stringsContains]

/-- The closed connection text occurs in `msg: cause`, with `msg` the text of
`ReadSource` or `ReadTarget` around the two addresses `a` and `b`, exactly when it
occurs in an address or in the cause. -/
theorem closedConnText_infix_wrap (pre mid a b cause : List Char)
    (hpre : pre.length < 32) (hmid : mid.length < 32)
    (h : closedConnText.data
      <:+: pre ++ '(' :: (a ++ ')' :: (mid ++ '(' :: (b ++ ')' ::
        (" failed".data ++ ':' :: ' ' :: cause))))) :
    closedConnText.data <:+: a ∨ closedConnText.data <:+: b ∨ closedConnText.data <:+: cause := by
  have hlen := closedConnText_length
  have short : ∀ x : List Char, x.length < 32 → ¬ closedConnText.data <:+: x := by
    intro x hx hin
    have := hin.length_le
    omega
  rcases infix_of_infix_sep _ _ _ '(' (by decide) h with h | h
  · exact absurd h (short _ hpre)
  rcases infix_of_infix_sep _ _ _ ')' (by decide) h with h | h
  · exact Or.inl h
  rcases infix_of_infix_sep _ _ _ '(' (by decide) h with h | h
  · exact absurd h (short _ hmid)
  rcases infix_of_infix_sep _ _ _ ')' (by decide) h with h | h
  · exact Or.inr (Or.inl h)
  rcases infix_of_infix_sep _ _ _ ':' (by decide) h with h | h
  · exact absurd h (short _ (by decide))
  rcases List.infix_cons_iff.mp h with h | h
  · obtain ⟨t, ht⟩ := h
    have : closedConnText.data = 'u' :: "se of closed network connection".data := by decide
    rw [this] at ht
    simp at ht
  · exact Or.inr (Or.inr h)

theorem sourceText_data (a b : String) (cause : GoError) :
    (errorsWrap cause ("copy source(" ++ a ++ ") => target(" ++ b ++ ") failed")).Error.data
      = "copy source".data ++ '(' :: (a.data ++ ')' :: (" => target".data ++ '(' :: (b.data
          ++ ')' :: (" failed".data ++ ':' :: ' ' :: cause.Error.data)))) := by
  simp [errorsWrap, GoError.Error, String.data_append]

theorem targetText_data (a b : String) (cause : GoError) :
    (errorsWrap cause ("copy target(" ++ a ++ ") => source(" ++ b ++ ") failed")).Error.data
      = "copy target".data ++ '(' :: (a.data ++ ')' :: (" => source".data ++ '(' :: (b.data
          ++ ')' :: (" failed".data ++ ':' :: ' ' :: cause.Error.data)))) := by
  simp [errorsWrap, GoError.Error, String.data_append]

theorem infix_of_infix_cause (l pre cause : List Char) (h : l <:+: cause) :
    l <:+: pre ++ cause := by
  obtain ⟨s, t, hst⟩ := h
  exact ⟨pre ++ s, t, by rw [← hst]; simp⟩

theorem ReadSource_error_inv (pr q : peer) (fuel : Nat) (buf : List Byte) (err : GoError)
    (h : pr.ReadSource fuel buf = some (some err, q)) :
    ∃ cause, err = errorsWrap cause ("copy source(" ++ pr.source.remoteAddr ++ ") => target("
      ++ pr.target.remoteAddr ++ ") failed") := by
  unfold peer.ReadSource at h
  rcases hc : Copy TcpConn.Write websocketReader.Read fuel pr.target { conn := pr.source } buf 0
    with _ | c
  · simp [hc] at h
  · rcases he : c.err with _ | cause
    · simp [hc, he] at h
    · simp only [hc, he, Option.some.injEq, Prod.mk.injEq] at h
      exact ⟨cause, h.1.symm⟩

theorem ReadTarget_error_inv (pr q : peer) (fuel : Nat) (buf : List Byte) (err : GoError)
    (h : pr.ReadTarget fuel buf = some (some err, q)) :
    ∃ cause, err = errorsWrap cause ("copy target(" ++ pr.target.remoteAddr ++ ") => source("
      ++ pr.source.remoteAddr ++ ") failed") := by
  unfold peer.ReadTarget at h
  rcases hc : Copy websocketWriter.Write TcpConn.Read fuel { conn := pr.source } pr.target buf 0
    with _ | c
  · simp [hc] at h
  · rcases he : c.err with _ | cause
    · simp [hc, he] at h
    · simp only [hc, he, Option.some.injEq, Prod.mk.injEq] at h
      exact ⟨cause, h.1.symm⟩

/-- C10, as amended: in the goroutine and inline alike, an error a relay returned
is given to `logger.Info` exactly when its text does not contain
`use of closed network connection`, nil logs nothing, and what follows the return
of a relay starts no relay again.  An error `ReadSource` or `ReadTarget` returns
is the cause of the copy loop wrapped in a text around the two remote addresses:
a cause whose text contains the phrase is suppressed after wrapping, and a cause
whose text does not contain it is logged after wrapping provided neither remote
address, as printed, contains the phrase. -/
theorem relay_error_classification (p : Proxy) (w : World) (pr : peer) :
    (∀ err, p.ServeWS_go pr err w = p.relayReturned err w) ∧
    (∀ err, p.ServeWS_end pr err w
      = p.deletePeer pr ((p.relayReturned err w).emit (.logInfo ["close peer"]))) ∧
    p.relayReturned none w = w ∧
    (∀ e, stringsContains e.Error closedConnText = true → p.relayReturned (some e) w = w) ∧
    (∀ e, stringsContains e.Error closedConnText = false →
      p.relayReturned (some e) w = w.emit (.logInfo [e.Error])) ∧
    (∀ err, ∃ new1 new2, (p.ServeWS_go pr err w).trace = w.trace ++ new1 ∧
      (p.ServeWS_end pr err w).trace = w.trace ++ new2 ∧
      ∀ e ∈ new1 ++ new2, e.isRelayStart = false) ∧
    (∀ (fuel : Nat) (buf : List Byte) (err : GoError) (q : peer),
      (pr.ReadSource fuel buf = some (some err, q) ∨
        pr.ReadTarget fuel buf = some (some err, q)) →
      ∃ cause msg, err = errorsWrap cause msg ∧
        (stringsContains cause.Error closedConnText = true →
          stringsContains err.Error closedConnText = true) ∧
        (stringsContains cause.Error closedConnText = false →
          stringsContains pr.source.remoteAddr closedConnText = false →
          stringsContains pr.target.remoteAddr closedConnText = false →
          stringsContains err.Error closedConnText = false)) := by
  refine ⟨fun _ => rfl, fun _ => rfl, rfl, ?_, ?_, ?_, ?_⟩
  · intro e he; simp [Proxy.relayReturned, he]
  · intro e he; simp [Proxy.relayReturned, he]
  · intro err
    obtain ⟨logs, hlogs, hall⟩ := relayReturned_logs p err w
    obtain ⟨logsE, hend, hallE⟩ := ServeWS_end_eq p pr err w
    refine ⟨logs, _, by simp [Proxy.ServeWS_go, hlogs], by rw [hend], ?_⟩
    intro e he
    simp only [List.mem_append, List.mem_cons, List.mem_singleton, List.not_mem_nil,
      or_false] at he
    rcases he with h | h | rfl | rfl | rfl | rfl
    · have := hall e h; cases e <;> simp_all [Event.isLog, Event.isRelayStart]
    · have := hallE e h; cases e <;> simp_all [Event.isLog, Event.isRelayStart]
    all_goals rfl
  · intro fuel buf err q h
    have hfalse : ∀ s : String, stringsContains s closedConnText = false ↔
        ¬ closedConnText.data <:+: s.data := by
      intro s; simp [stringsContains]
    rcases h with h | h
    · obtain ⟨cause, rfl⟩ := ReadSource_error_inv pr q fuel buf err h
      refine ⟨cause, _, rfl, ?_, ?_⟩
      · intro hc
        rw [stringsContains_iff] at hc ⊢
        rw [sourceText_data]
        have hpre := infix_of_infix_cause _
          ("copy source".data ++ '(' :: (pr.source.remoteAddr.data ++ ')' ::
            (" => target".data ++ '(' :: (pr.target.remoteAddr.data ++ ')' ::
              (" failed".data ++ [':', ' '])))))
          _ hc
        simpa using hpre
      · intro hc ha hb
        rw [hfalse] at hc ha hb ⊢
        intro hin
        rw [sourceText_data] at hin
        rcases closedConnText_infix_wrap _ _ _ _ _ (by decide) (by decide) hin with h1 | h1 | h1
        · exact ha h1
        · exact hb h1
        · exact hc h1
    · obtain ⟨cause, rfl⟩ := ReadTarget_error_inv pr q fuel buf err h
      refine ⟨cause, _, rfl, ?_, ?_⟩
      · intro hc
        rw [stringsContains_iff] at hc ⊢
        rw [targetText_data]
        have hpre := infix_of_infix_cause _
          ("copy target".data ++ '(' :: (pr.target.remoteAddr.data ++ ')' ::
            (" => source".data ++ '(' :: (pr.source.remoteAddr.data ++ ')' ::
              (" failed".data ++ [':', ' '])))))
          _ hc
        simpa using hpre
      · intro hc ha hb
        rw [hfalse] at hc ha hb ⊢
        intro hin
        rw [targetText_data] at hin
        rcases closedConnText_infix_wrap _ _ _ _ _ (by decide) (by decide) hin with h1 | h1 | h1
        · exact hb h1
        · exact ha h1
        · exact hc h1

/-- C10 at a relay stopped by a closed connection: the cause contains the phrase
and so does the error `ReadSource` returns, which is not logged; and at a relay
stopped by a reset of the client's connection, with addresses of the form
`host:port`: neither the cause nor the error returned contains the phrase, and
the error is logged. -/
theorem relay_error_classification_witness :
    (∃ cause msg,
      closedPeer.ReadSource 1 [0, 0, 0, 0] = some (some (errorsWrap cause msg), closedPeer)
      ∧ stringsContains (errorsWrap cause msg).Error closedConnText = true
      ∧ zeroProxy.relayReturned (some (errorsWrap cause msg)) zeroWorld = zeroWorld) ∧
    (∃ cause msg,
      resetPeer.ReadSource 1 [0, 0, 0, 0] = some (some (errorsWrap cause msg), resetPeer)
      ∧ stringsContains (errorsWrap cause msg).Error closedConnText = false
      ∧ zeroProxy.relayReturned (some (errorsWrap cause msg)) zeroWorld
          = zeroWorld.emit (.logInfo [(errorsWrap cause msg).Error])) := by
  refine ⟨?_, ?_⟩
  · have hrun : closedPeer.ReadSource 1 [0, 0, 0, 0]
        = some (some (errorsWrap
            (.fundamental "read tcp 10.0.0.2:8080: use of closed network connection")
            "copy source(10.0.0.7:51234) => target(127.0.0.1:5901) failed"), closedPeer) := by
      decide
    obtain ⟨_, _, _, hsup, _, _, hwrap⟩ :=
      relay_error_classification zeroProxy zeroWorld closedPeer
    obtain ⟨cause, msg, herr, hyes, _⟩ := hwrap 1 [0, 0, 0, 0] _ closedPeer (Or.inl hrun)
    have hinj : cause
        = .fundamental "read tcp 10.0.0.2:8080: use of closed network connection" := by
      simp only [errorsWrap, GoError.withMessage.injEq] at herr
      exact herr.1.symm
    have hcontains := hyes (by rw [hinj]; decide)
    exact ⟨_, _, hrun, hcontains, hsup _ hcontains⟩
  · have hrun : resetPeer.ReadSource 1 [0, 0, 0, 0]
        = some (some (errorsWrap (.fundamental "read: connection reset by peer")
            "copy source(10.0.0.7:51234) => target(127.0.0.1:5901) failed"), resetPeer) := by
      decide
    obtain ⟨_, _, _, _, hlog, _, hwrap⟩ :=
      relay_error_classification zeroProxy zeroWorld resetPeer
    obtain ⟨cause, msg, herr, _, hno⟩ := hwrap 1 [0, 0, 0, 0] _ resetPeer (Or.inl hrun)
    have hinj : cause = .fundamental "read: connection reset by peer" := by
      simp only [errorsWrap, GoError.withMessage.injEq] at herr
      exact herr.1.symm
    have hclean := hno (by rw [hinj]; decide) (by decide) (by decide)
    exact ⟨_, _, hrun, hclean, hlog _ hclean⟩

/-- C10 as stated fails: a client connected over a Unix socket bound to the path
`/tmp/use of closed network connection` goes away; the cause of the copy loop
does not contain the phrase, the error `ReadSource` returns does, because the
wrapping prints the remote address, and nothing is logged. -/
theorem wrapped_address_suppresses_log :
    stringsContains
      (GoError.fundamental "websocket: close 1006 (abnormal closure): unexpected EOF").Error
      closedConnText = false ∧
    unixPeer.ReadSource 1 [0, 0, 0, 0]
      = some (some (errorsWrap
          (.fundamental "websocket: close 1006 (abnormal closure): unexpected EOF")
          "copy source(/tmp/use of closed network connection) => target(127.0.0.1:5901) failed"),
          unixPeer) ∧
    (zeroProxy.relayReturned (some (errorsWrap
          (.fundamental "websocket: close 1006 (abnormal closure): unexpected EOF")
          "copy source(/tmp/use of closed network connection) => target(127.0.0.1:5901) failed"))
        zeroWorld).trace = [] := by
  refine ⟨by decide, by decide, ?_⟩
  have hc : stringsContains (errorsWrap
      (.fundamental "websocket: close 1006 (abnormal closure): unexpected EOF")
      "copy source(/tmp/use of closed network connection) => target(127.0.0.1:5901) failed").Error
      closedConnText = true := by decide
  simp only [Proxy.relayReturned, hc, if_true]
  rfl

end vncproxy
